import Mathlib

/-!
Formal model of the meteorite-dashboard data-normalization logic of
`src/app.py` (function `load_data` together with the top-level year-window
and slider computations, lines 12-73).

Modelling conventions:
* A pandas DataFrame is a `Table`: a list of column names and a list of
  rows, each row a list of cells.  CSV cells are `Cell.null` (missing /
  NaN), `Cell.num` (a numeric value) or `Cell.str` (anything else).
* Numeric values are exact decimals `Decimal` (mantissa / 10 ^ exp); the
  bridge `numVal` interprets them as rationals.  Floating-point rounding
  is not modelled; the dataset values used by the program are decimal
  literals.
* `pd.to_numeric(errors="coerce")` is `toNumericCell` (decimal syntax;
  exponent forms are not modelled, none of the claims involve them).
* `df.dropna(subset=cs)` raises `KeyError` when a column of `cs` is
  absent; this is `dropnaSubset` returning `Except.error PdError.keyError`.
* `min([])` / `max([])` raise `ValueError`; this is `sliderBounds`.
* Column lookup uses the first matching column (CSV headers read by
  `pd.read_csv` are unique; `.str.strip().str.lower()` is modelled by
  `normName` over ASCII, as in the dataset).
* `.str.split(",", expand=True)` assigned to two columns requires the
  expanded width to be exactly 2 (otherwise pandas raises `ValueError`);
  an all-rows-dropped table is accepted, see `geoBranch`.
-/

/-- Exact decimal number: `man / 10 ^ exp`. -/
structure Decimal where
  man : Int
  exp : Nat
deriving DecidableEq

/-- Value of a decimal as a rational. -/
def numVal (d : Decimal) : Rat := (d.man : Rat) / (10 : Rat) ^ d.exp

/-- One cell of a table: missing (NaN), numeric, or string. -/
inductive Cell where
  | null : Cell
  | num : Decimal → Cell
  | str : String → Cell
deriving DecidableEq

/-- Missing-value test, `pd.isna`, on a cell. -/
def Cell.isNull : Cell → Bool
  | Cell.null => true
  | _ => false

/-- An in-memory table: header names plus rows of cells. -/
structure Table where
  cols : List String
  rows : List (List Cell)
deriving DecidableEq

/-- Rectangular table: every row has exactly one cell per column. -/
def Table.Rect (t : Table) : Prop := ∀ r ∈ t.rows, r.length = t.cols.length

instance (t : Table) : Decidable t.Rect :=
  decidable_of_iff (∀ r ∈ t.rows, r.length = t.cols.length) Iff.rfl

/-- Cell of a row at a column index (missing positions read as NaN). -/
def getCell (r : List Cell) (i : Nat) : Cell := r.getD i Cell.null

/-- Index of the first column with the given name. -/
def Table.colIdx (t : Table) (c : String) : Option Nat :=
  List.findIdx? (fun x => x == c) t.cols

/-- Column membership, `c in df.columns`. -/
def Table.hasCol (t : Table) (c : String) : Bool := (t.colIdx c).isSome

/-- ASCII whitespace recognised by `str.strip()`. -/
def isSpaceChar (c : Char) : Bool :=
  c == (' ') || c == ('\t') || c == ('\n') || c == ('\r')

/-- The uppercase-to-lowercase table of `str.lower()` over ASCII. -/
def lowerPairs : List (Char × Char) :=
  [(('A'), ('a')), (('B'), ('b')), (('C'), ('c')), (('D'), ('d')), (('E'), ('e')),
   (('F'), ('f')), (('G'), ('g')), (('H'), ('h')), (('I'), ('i')), (('J'), ('j')),
   (('K'), ('k')), (('L'), ('l')), (('M'), ('m')), (('N'), ('n')), (('O'), ('o')),
   (('P'), ('p')), (('Q'), ('q')), (('R'), ('r')), (('S'), ('s')), (('T'), ('t')),
   (('U'), ('u')), (('V'), ('v')), (('W'), ('w')), (('X'), ('x')), (('Y'), ('y')),
   (('Z'), ('z'))]

/-- ASCII lower-casing of one character, as `str.lower()` acts on the
column names appearing in the dataset. -/
def lowerChar (c : Char) : Char :=
  match lowerPairs.find? (fun p => p.1 == c) with
  | some p => p.2
  | none => c

/-- Remove leading and trailing characters satisfying `p`. -/
def trimBy (p : Char → Bool) (l : List Char) : List Char :=
  ((l.dropWhile p).reverse.dropWhile p).reverse

/-- Whitespace stripping, `str.strip()`, on a character list. -/
def trimChars (l : List Char) : List Char := trimBy isSpaceChar l

/-- Column-name standardisation of line 21, `name.strip().lower()`. -/
def normName (s : String) : String := String.mk ((trimChars s.data).map lowerChar)

/-- Line 21, `df.columns = df.columns.str.strip().str.lower()`. -/
def normCols (t : Table) : Table := { cols := t.cols.map normName, rows := t.rows }

/-- Numeric value of a digit list, most significant first. -/
def digitsVal (l : List Char) : Nat :=
  l.foldl (fun n c => n * 10 + (c.toNat - 48)) 0

/-- Parse a (decimal-syntax) float the way `pd.to_numeric` accepts it:
optional surrounding whitespace, optional sign, digits with an optional
fractional part.  Anything else is a parse failure. -/
def parseNum (s : String) : Option Decimal :=
  let cs := trimChars s.data
  let signNeg : Bool := cs.head? == some ('-')
  let hasSign : Bool := signNeg || (cs.head? == some ('+'))
  let cs2 := if hasSign then cs.tail else cs
  let intPart := cs2.takeWhile Char.isDigit
  let rest := cs2.dropWhile Char.isDigit
  match rest with
  | [] =>
    if intPart.isEmpty then none
    else some ⟨(if signNeg then -(digitsVal intPart : Int) else (digitsVal intPart : Int)), 0⟩
  | c :: frac =>
    if c == ('.') && frac.all Char.isDigit && !(intPart.isEmpty && frac.isEmpty) then
      some ⟨(if signNeg
             then -((digitsVal intPart * 10 ^ frac.length + digitsVal frac : Nat) : Int)
             else ((digitsVal intPart * 10 ^ frac.length + digitsVal frac : Nat) : Int)),
            frac.length⟩
    else none

/-- Numeric coercion, `pd.to_numeric(x, errors="coerce")`, on one cell. -/
def toNumericCell : Cell → Cell
  | Cell.null => Cell.null
  | Cell.num d => Cell.num d
  | Cell.str s =>
    match parseNum s with
    | some d => Cell.num d
    | none => Cell.null

/-- Truncation toward zero, as `astype(int)`. -/
def decTrunc (d : Decimal) : Int :=
  if d.man < 0 then -(((-d.man).toNat / 10 ^ d.exp : Nat) : Int)
  else ((d.man.toNat / 10 ^ d.exp : Nat) : Int)

/-- Integer cast, `astype(int)`, on one cell (only reached on numeric cells). -/
def truncCell : Cell → Cell
  | Cell.num d => Cell.num ⟨decTrunc d, 0⟩
  | c => c

/-- Integer value of a (normalized) year cell. -/
def cellToInt : Cell → Int
  | Cell.num d => decTrunc d
  | _ => 0

/-- Errors raised by the pandas operations the script uses. -/
inductive PdError where
  | keyError : PdError
  | valueError : PdError
deriving DecidableEq

instance {ε α : Type} [DecidableEq ε] [DecidableEq α] : DecidableEq (Except ε α) := fun a b =>
  match a, b with
  | Except.ok x, Except.ok y =>
    if h : x = y then isTrue (congrArg Except.ok h)
    else isFalse (fun hh => h (Except.ok.inj hh))
  | Except.error x, Except.error y =>
    if h : x = y then isTrue (congrArg Except.error h)
    else isFalse (fun hh => h (Except.error.inj hh))
  | Except.ok _, Except.error _ => isFalse (fun hh => Except.noConfusion hh)
  | Except.error _, Except.ok _ => isFalse (fun hh => Except.noConfusion hh)

/-- Is the cell of row `r` under column `c` missing (absent column reads
as missing; `dropnaSubset` checks column existence first). -/
def nullAt (t : Table) (c : String) (r : List Cell) : Bool :=
  match t.colIdx c with
  | some i => (getCell r i).isNull
  | none => true

/-- Row filtering, `df.dropna(subset=cs)`: `KeyError` when a column is absent, otherwise
keep the rows whose cells under `cs` are all present. -/
def dropnaSubset (t : Table) (cs : List String) : Except PdError Table :=
  if cs.all (fun c => t.hasCol c) then
    Except.ok { cols := t.cols, rows := t.rows.filter (fun r => cs.all (fun c => !nullAt t c r)) }
  else Except.error PdError.keyError

/-- Column rewrite, `df[c] = f(df[c])` (no-op when the column is absent). -/
def Table.mapCol (t : Table) (c : String) (f : Cell → Cell) : Table :=
  match t.colIdx c with
  | some i => { cols := t.cols, rows := t.rows.map (fun r => r.set i (f (getCell r i))) }
  | none => t

/-- Column assignment, `df[c] = <row-wise value>`: overwrite in place, or
append a new column at the right end. -/
def Table.setCol (t : Table) (c : String) (f : List Cell → Cell) : Table :=
  match t.colIdx c with
  | some i => { cols := t.cols, rows := t.rows.map (fun r => r.set i (f r)) }
  | none => { cols := t.cols ++ [c], rows := t.rows.map (fun r => r ++ [f r]) }

/-- Renaming map of line 25, for the `lat`/`lon` shape. -/
def ren1 (c : String) : String :=
  if c == ("lat") then ("reclat") else if c == ("lon") then ("reclong") else c

/-- Renaming map of line 27, for the `latitude`/`longitude` shape. -/
def ren2 (c : String) : String :=
  if c == ("latitude") then ("reclat") else if c == ("longitude") then ("reclong") else c

/-- Rename, `df.rename(columns=m)`: every matching column name is mapped. -/
def renameCols (t : Table) (f : String → String) : Table :=
  { cols := t.cols.map f, rows := t.rows }

/-- Characters stripped by `.str.strip("()")`. -/
def isParenChar (c : Char) : Bool := c == ('(') || c == (')')

/-- Parenthesis stripping, `s.strip("()")`. -/
def stripParens (s : String) : String := String.mk (trimBy isParenChar s.data)

/-- Comma split, `s.split(",")`: split at every comma; an empty string yields one empty field. -/
def splitComma (l : List Char) : List (List Char) :=
  match l with
  | [] => [[]]
  | c :: rest =>
    let r := splitComma rest
    if c == (',') then [] :: r
    else
      match r with
      | [] => [[c]]
      | h :: t => (c :: h) :: t

/-- The comma-separated fields of a geolocation cell after paren
stripping; a non-string cell has no fields (`.str` gives NaN). -/
def geoParts (g : Cell) : List String :=
  match g with
  | Cell.str s => (splitComma (stripParens s).data).map String.mk
  | _ => []

/-- Number of columns a cell contributes to `.str.split(",", expand=True)`
(a NaN row contributes a single NaN field). -/
def geoWidth (g : Cell) : Nat :=
  match g with
  | Cell.str s => (splitComma (stripParens s).data).length
  | _ => 1

/-- Field `k` of the expanded split of a geolocation cell (absent fields
are NaN). -/
def geoField (g : Cell) (k : Nat) : Cell :=
  match (geoParts g)[k]? with
  | some p => Cell.str p
  | none => Cell.null

/-- The two assignments of lines 29-31: write the parsed fields of the
geolocation column at index `k` into `reclat` and `reclong`. -/
def geoAssign (t : Table) (k : Nat) : Table :=
  (t.setCol ("reclat") (fun r => toNumericCell (geoField (getCell r k) 0))).setCol ("reclong")
    (fun r => toNumericCell (geoField (getCell r k) 1))

/-- Lines 28-31: resolve coordinates from the `geolocation` column.  The
two-column assignment requires the expanded split to have width exactly 2
(otherwise pandas raises `ValueError`); a table with no rows is accepted. -/
def geoBranch (t : Table) : Except PdError Table :=
  match t.colIdx ("geolocation") with
  | none => Except.error PdError.keyError
  | some k =>
    let width := (t.rows.map (fun r => geoWidth (getCell r k))).foldr max 1
    if t.rows.isEmpty || width == 2 then Except.ok (geoAssign t k)
    else Except.error PdError.valueError

/-- Lines 24-31: the ordered coordinate-shape dispatch. -/
def coordStep (t : Table) : Except PdError Table :=
  if t.hasCol ("lat") && t.hasCol ("lon") then Except.ok (renameCols t ren1)
  else if t.hasCol ("latitude") && t.hasCol ("longitude") then Except.ok (renameCols t ren2)
  else if t.hasCol ("geolocation") then geoBranch t
  else Except.ok t

/-- Lines 37-40: coerce the year column to numbers, drop missing years,
truncate to integers (no-op when there is no year column). -/
def yearStep (t : Table) : Except PdError Table :=
  if t.hasCol ("year") then
    (dropnaSubset (t.mapCol ("year") toNumericCell) [("year")]).map
      (fun u => u.mapCol ("year") truncCell)
  else Except.ok t

/-- The body of `load_data` after the file-existence check (lines 18-42):
standardise names, resolve coordinates, drop missing coordinates, fix the
year column. -/
def loadTransform (raw : Table) : Except PdError Table :=
  (coordStep (normCols raw)).bind (fun t2 =>
    (dropnaSubset t2 [("reclat"), ("reclong")]).bind yearStep)

/-- Function `load_data` (lines 12-42): `none` models a missing CSV file, in which
case the function shows an error message and returns `None`. -/
def load_data (file : Option Table) : Option (Except PdError Table) :=
  match file with
  | none => none
  | some raw => some (loadTransform raw)

/-- Line 51: `sorted([y for y in df["year"].unique() if y < 2025])`.
Accessing `df["year"]` on a table without that column raises `KeyError`. -/
def validYearsOf (d : Table) : Except PdError (List Int) :=
  match d.colIdx ("year") with
  | some i =>
    Except.ok (List.insertionSort (fun a b : Int => a ≤ b)
      (((d.rows.map (fun r => cellToInt (getCell r i))).dedup).filter (fun y => y < 2025)))
  | none => Except.error PdError.keyError

/-- Line 52: `valid_years[-20:] if len(valid_years) >= 20 else valid_years`. -/
def last20 (l : List Int) : List Int :=
  if l.length ≥ 20 then l.drop (l.length - 20) else l

/-- Line 73: `int(min(last_20_years)), int(max(last_20_years))`; `min` and
`max` of an empty sequence raise `ValueError`. -/
def sliderBounds (w : List Int) : Except PdError (Int × Int) :=
  match w.min?, w.max? with
  | some a, some b => Except.ok (a, b)
  | _, _ => Except.error PdError.valueError

/-- The user-visible message of line 15. -/
def missingFileMessage : String :=
  "CSV file not found. Please add 'nasa_meteorite_data.csv' in the same folder."

/-- Outcome of the script prefix up to the year slider (lines 44-73).
`missingFileHalt` carries the surfaced `st.error` message and models
`st.stop()`: nothing after line 46 runs. -/
inductive MainStatus where
  | missingFileHalt : String → MainStatus
  | crashed : PdError → MainStatus
  | dashboard : Table → List Int → Int × Int → MainStatus
deriving DecidableEq

/-- Lines 44-73: load, halt via `st.stop()` when the file is missing,
compute the year window, then set up the year slider.  An uncaught pandas
exception crashes the script. -/
def runMain (file : Option Table) : MainStatus :=
  match load_data file with
  | none => MainStatus.missingFileHalt missingFileMessage
  | some (Except.error e) => MainStatus.crashed e
  | some (Except.ok d) =>
    match validYearsOf d with
    | Except.error e => MainStatus.crashed e
    | Except.ok vy =>
      match sliderBounds (last20 vy) with
      | Except.error e => MainStatus.crashed e
      | Except.ok b => MainStatus.dashboard d (last20 vy) b

/-- Spec side, from the words of the Year Window definition: the sorted
set of distinct years strictly less than 2025. -/
def specSortedQualifying (ys : List Int) : List Int :=
  List.insertionSort (fun a b : Int => a ≤ b) ((ys.filter (fun y => y < 2025)).dedup)

/-- Spec side: the Year Window, truncated to its largest 20 elements when
more than 20 distinct qualifying years exist. -/
def specYearWindow (ys : List Int) : List Int :=
  let l := specSortedQualifying ys
  if l.length > 20 then l.drop (l.length - 20) else l

/-- Spec side, for claim C4 as stated: a coordinate cell counted as
"non-numeric" (fails numeric coercion). -/
def nonNumericCell (c : Cell) : Bool := (toNumericCell c).isNull

/-! ## Year-window lemmas (claim C1) -/

theorem dedup_filter_perm (p : Int → Bool) (ys : List Int) :
    ((ys.dedup).filter p).Perm ((ys.filter p).dedup) := by
  rw [List.perm_ext_iff_of_nodup ((List.nodup_dedup ys).filter p) (List.nodup_dedup _)]
  intro a
  simp [List.mem_filter, List.mem_dedup, and_comm]

theorem sortInt_eq_of_perm {l₁ l₂ : List Int} (h : l₁.Perm l₂) :
    List.insertionSort (fun a b : Int => a ≤ b) l₁ =
      List.insertionSort (fun a b : Int => a ≤ b) l₂ :=
  List.eq_of_perm_of_sorted
    (((List.perm_insertionSort _ l₁).trans h).trans (List.perm_insertionSort _ l₂).symm)
    (List.sorted_insertionSort _ l₁) (List.sorted_insertionSort _ l₂)

theorem code_window_eq_spec (ys : List Int) :
    last20 (List.insertionSort (fun a b : Int => a ≤ b)
      ((ys.dedup).filter (fun y => y < 2025))) = specYearWindow ys := by
  have hsort :
      List.insertionSort (fun a b : Int => a ≤ b) ((ys.dedup).filter (fun y => y < 2025)) =
        specSortedQualifying ys :=
    sortInt_eq_of_perm (dedup_filter_perm _ ys)
  rw [hsort, specYearWindow, last20]
  rcases Nat.lt_trichotomy (specSortedQualifying ys).length 20 with h | h | h
  · rw [if_neg (by omega), if_neg (by omega)]
  · rw [if_pos (by omega), if_neg (by omega), h]
    simp
  · rw [if_pos (by omega), if_pos (by omega)]

/-- Claim C1: for every normalized Dataset with a year column, the Year
Window equals the sorted (ascending) set of distinct year values strictly
less than 2025, truncated to its largest 20 elements when more than 20
distinct qualifying years exist, and equal to the whole set otherwise; in
particular, for years [1998, 2001, 2001, 2010, 2030] it is
[1998, 2001, 2010], and for the 25 distinct qualifying years 2000..2024
it is exactly the largest 20, namely 2005..2024. -/
theorem c1_year_window :
    (∀ (d : Table) (i : Nat) (vy : List Int), d.colIdx ("year") = some i →
        validYearsOf d = Except.ok vy →
        last20 vy = specYearWindow (d.rows.map (fun r => cellToInt (getCell r i)))) ∧
    (∃ vy, validYearsOf
        ⟨[("year")], [[Cell.num ⟨1998, 0⟩], [Cell.num ⟨2001, 0⟩], [Cell.num ⟨2001, 0⟩],
          [Cell.num ⟨2010, 0⟩], [Cell.num ⟨2030, 0⟩]]⟩ = Except.ok vy ∧
      last20 vy = [1998, 2001, 2010]) ∧
    (∃ vy, validYearsOf
        ⟨[("year")], (List.range 25).map (fun n => [Cell.num ⟨2000 + (n : Int), 0⟩])⟩ =
          Except.ok vy ∧
      last20 vy = (List.range 20).map (fun n => (2005 + (n : Int)))) := by
  refine ⟨?_, ⟨_, rfl, by decide⟩, ⟨_, rfl, by decide⟩⟩
  intro d i vy hi hok
  rw [validYearsOf, hi] at hok
  cases hok
  exact code_window_eq_spec _

/-- Witness for C1 at a concrete Dataset. -/
theorem c1_year_window_witness :
    (Table.colIdx ⟨[("year")], [[Cell.num ⟨1999, 0⟩], [Cell.num ⟨2040, 0⟩]]⟩ ("year") = some 0) ∧
    (validYearsOf ⟨[("year")], [[Cell.num ⟨1999, 0⟩], [Cell.num ⟨2040, 0⟩]]⟩ =
      Except.ok [1999]) ∧
    last20 [1999] =
      specYearWindow ((⟨[("year")], [[Cell.num ⟨1999, 0⟩], [Cell.num ⟨2040, 0⟩]]⟩ :
        Table).rows.map (fun r => cellToInt (getCell r 0))) :=
  ⟨by decide, by decide, c1_year_window.1 _ 0 [1999] (by decide) (by decide)⟩

/-! ## Column-tracking lemmas -/

theorem hasCol_any (t : Table) (c : String) : t.hasCol c = t.cols.any (fun x => x == c) := by
  rw [Table.hasCol, Table.colIdx, List.findIdx?_isSome]

theorem dropnaSubset_ok_iff (t : Table) (cs : List String) (u : Table) :
    dropnaSubset t cs = Except.ok u ↔
      (cs.all fun c => t.hasCol c) = true ∧
      u = ⟨t.cols, t.rows.filter (fun r => cs.all (fun c => !nullAt t c r))⟩ := by
  rw [dropnaSubset]
  constructor
  · intro h
    by_cases hc : (cs.all fun c => t.hasCol c) = true
    · rw [if_pos hc] at h
      exact ⟨hc, (Except.ok.inj h).symm⟩
    · rw [if_neg hc] at h
      exact absurd h (by intro hh; cases hh)
  · intro ⟨hc, hu⟩
    rw [if_pos hc, hu]

theorem mapCol_cols (t : Table) (c : String) (f : Cell → Cell) : (t.mapCol c f).cols = t.cols := by
  rw [Table.mapCol]
  cases t.colIdx c <;> rfl

theorem yearStep_ok_cols (t u : Table) (h : yearStep t = Except.ok u) : u.cols = t.cols := by
  rw [yearStep] at h
  by_cases hy : t.hasCol ("year") = true
  · rw [if_pos hy] at h
    rcases hd : dropnaSubset (t.mapCol ("year") toNumericCell) [("year")] with e | v
    · rw [hd] at h; cases h
    · rw [hd] at h
      cases h
      rw [mapCol_cols]
      have := (dropnaSubset_ok_iff _ _ _).mp hd
      rw [this.2]
      exact mapCol_cols _ _ _
  · rw [if_neg hy] at h
    cases h
    rfl

theorem hasCol_eq_of_cols {t u : Table} (c : String) (h : t.cols = u.cols) :
    t.hasCol c = u.hasCol c := by
  rw [Table.hasCol, Table.hasCol, Table.colIdx, Table.colIdx, h]

theorem except_bind_ok {ε α β : Type} {m : Except ε α} {f : α → Except ε β} {b : β}
    (h : m.bind f = Except.ok b) : ∃ a, m = Except.ok a ∧ f a = Except.ok b := by
  cases m with
  | error e => cases h
  | ok a => exact ⟨a, rfl, h⟩

theorem ren1_beq_year (c : String) : (ren1 c == ("year")) = (c == ("year")) := by
  rw [ren1]
  split_ifs with h1 h2 <;> simp_all

theorem ren2_beq_year (c : String) : (ren2 c == ("year")) = (c == ("year")) := by
  rw [ren2]
  split_ifs with h1 h2 <;> simp_all

theorem setCol_hasCol_of_ne (t : Table) (c n : String) (f : List Cell → Cell)
    (hc : (c == n) = false) : (t.setCol c f).hasCol n = t.hasCol n := by
  rw [Table.setCol]
  cases t.colIdx c with
  | some i => rfl
  | none =>
    rw [hasCol_any, hasCol_any]
    simp only [List.any_append, List.any_cons, List.any_nil, hc, Bool.or_false]

theorem geoAssign_hasCol_year (t : Table) (k : Nat) :
    (geoAssign t k).hasCol ("year") = t.hasCol ("year") := by
  rw [geoAssign, setCol_hasCol_of_ne _ _ _ _ (by decide),
    setCol_hasCol_of_ne _ _ _ _ (by decide)]

theorem geoBranch_ok (t u : Table) (h : geoBranch t = Except.ok u) :
    ∃ k, t.colIdx ("geolocation") = some k ∧
      (t.rows.isEmpty ||
        ((t.rows.map (fun r => geoWidth (getCell r k))).foldr max 1 == 2)) = true ∧
      u = geoAssign t k := by
  rw [geoBranch] at h
  rcases hk : t.colIdx ("geolocation") with _ | k
  · rw [hk] at h; cases h
  · rw [hk] at h
    dsimp only at h
    split at h
    · exact ⟨k, rfl, by assumption, (Except.ok.inj h).symm⟩
    · cases h

theorem coordStep_ok_year (t u : Table) (h : coordStep t = Except.ok u) :
    u.hasCol ("year") = t.hasCol ("year") := by
  rw [coordStep] at h
  split_ifs at h with hb1 hb2 hb3
  · cases h
    rw [hasCol_any, hasCol_any, renameCols, List.any_map]
    exact congrArg _ (funext ren1_beq_year)
  · cases h
    rw [hasCol_any, hasCol_any, renameCols, List.any_map]
    exact congrArg _ (funext ren2_beq_year)
  · obtain ⟨k, -, -, hu⟩ := geoBranch_ok t u h
    rw [hu, geoAssign_hasCol_year]
  · cases h
    rfl

theorem loadTransform_ok_year (t d : Table) (h : loadTransform t = Except.ok d) :
    d.hasCol ("year") = (normCols t).hasCol ("year") := by
  rw [loadTransform] at h
  obtain ⟨t2, h2, h3⟩ := except_bind_ok h
  obtain ⟨t3, h4, h5⟩ := except_bind_ok h3
  have e4 : t3.cols = t2.cols := by
    rw [((dropnaSubset_ok_iff _ _ _).mp h4).2]
  have e5 : d.cols = t3.cols := yearStep_ok_cols _ _ h5
  rw [hasCol_eq_of_cols _ (e5.trans e4)]
  exact coordStep_ok_year _ _ h2

/-- Claim C8: if the input file is absent, normalization fails with the
fatal DatasetUnavailable condition: no Dataset is produced (`load_data`
returns nothing), the user-visible message is surfaced, and no further
processing is attempted (the script halts instead of crashing or reaching
the dashboard). -/
theorem c8_missing_file :
    load_data none = none ∧
    runMain none = MainStatus.missingFileHalt missingFileMessage ∧
    ∀ s : MainStatus, s = runMain none →
      (∀ d w b, s ≠ MainStatus.dashboard d w b) ∧ (∀ e, s ≠ MainStatus.crashed e) := by
  refine ⟨rfl, rfl, ?_⟩
  intro s hs
  subst hs
  exact ⟨fun d w b h => MainStatus.noConfusion h, fun e h => MainStatus.noConfusion h⟩

/-- Counterexample to claim C2: a table with none of the three coordinate
shapes (single column `name`) makes normalization raise `KeyError` at the
coordinate `dropna` — it does not succeed with an empty Dataset. -/
theorem c2_no_shape_counterexample :
    loadTransform ⟨[("name")], [[Cell.str ("x")]]⟩ = Except.error PdError.keyError ∧
    ∀ d : Table, loadTransform ⟨[("name")], [[Cell.str ("x")]]⟩ ≠ Except.ok d := by
  refine ⟨by decide, ?_⟩
  intro d h
  rw [show loadTransform ⟨[("name")], [[Cell.str ("x")]]⟩ = Except.error PdError.keyError
    from by decide] at h
  cases h

/-- Claim C2 amended: for every input table in which none of the three
recognized coordinate shapes is present, and which does not already carry
both canonical columns `reclat`/`reclong`, normalization raises `KeyError`
at `dropna(subset=["reclat","reclong"])` instead of returning an empty
Dataset. -/
theorem c2_no_shape_amended (t : Table)
    (h1 : ((normCols t).hasCol ("lat") && (normCols t).hasCol ("lon")) = false)
    (h2 : ((normCols t).hasCol ("latitude") && (normCols t).hasCol ("longitude")) = false)
    (h3 : (normCols t).hasCol ("geolocation") = false)
    (h4 : ((normCols t).hasCol ("reclat") && (normCols t).hasCol ("reclong")) = false) :
    loadTransform t = Except.error PdError.keyError := by
  have hcoord : coordStep (normCols t) = Except.ok (normCols t) := by
    rw [coordStep, h1, h2, h3]
    rfl
  rw [loadTransform, hcoord]
  show (dropnaSubset (normCols t) [("reclat"), ("reclong")]).bind yearStep = _
  rw [dropnaSubset]
  have hall : ([("reclat"), ("reclong")].all fun c => (normCols t).hasCol c) = false := by
    simp only [List.all_cons, List.all_nil, Bool.and_true]
    exact h4
  rw [if_neg (by rw [hall]; exact Bool.false_ne_true)]
  rfl

/-- Witness for the amended C2 at a concrete no-coordinate table. -/
theorem c2_no_shape_witness :
    (((normCols ⟨[("name"), ("mass")], []⟩).hasCol ("lat") &&
        (normCols ⟨[("name"), ("mass")], []⟩).hasCol ("lon")) = false) ∧
    (((normCols ⟨[("name"), ("mass")], []⟩).hasCol ("latitude") &&
        (normCols ⟨[("name"), ("mass")], []⟩).hasCol ("longitude")) = false) ∧
    ((normCols ⟨[("name"), ("mass")], []⟩).hasCol ("geolocation") = false) ∧
    (((normCols ⟨[("name"), ("mass")], []⟩).hasCol ("reclat") &&
        (normCols ⟨[("name"), ("mass")], []⟩).hasCol ("reclong")) = false) ∧
    loadTransform ⟨[("name"), ("mass")], []⟩ = Except.error PdError.keyError :=
  ⟨by decide, by decide, by decide, by decide,
    c2_no_shape_amended _ (by decide) (by decide) (by decide) (by decide)⟩

/-- Counterexample to claim C3: an input whose rows are all dropped (its
only year value is non-numeric) normalizes to an empty Dataset, yet the
program does not treat this as a valid "no data" state: the year slider
raises `ValueError` (`min` of the empty Year Window). -/
theorem c3_empty_counterexample :
    loadTransform ⟨[("lat"), ("lon"), ("year")],
        [[Cell.num ⟨1, 0⟩, Cell.num ⟨2, 0⟩, Cell.str ("x")]]⟩ =
      Except.ok ⟨[("reclat"), ("reclong"), ("year")], []⟩ ∧
    runMain (some ⟨[("lat"), ("lon"), ("year")],
        [[Cell.num ⟨1, 0⟩, Cell.num ⟨2, 0⟩, Cell.str ("x")]]⟩) =
      MainStatus.crashed PdError.valueError := by
  exact ⟨by decide, by decide⟩

/-- Claim C3 amended: an input whose normalization retains zero records
yields an empty Dataset, and (when a year column is present) an empty Year
Window, without error; but the year slider then raises `ValueError` on the
empty window instead of reporting "no data". -/
theorem c3_empty_amended (t d : Table) (yi : Nat)
    (hok : loadTransform t = Except.ok d)
    (hempty : d.rows = [])
    (hyear : d.colIdx ("year") = some yi) :
    validYearsOf d = Except.ok [] ∧ last20 [] = [] ∧
    runMain (some t) = MainStatus.crashed PdError.valueError := by
  have hv : validYearsOf d = Except.ok [] := by
    rw [validYearsOf, hyear, hempty]
    rfl
  refine ⟨hv, rfl, ?_⟩
  have hld : load_data (some t) = some (Except.ok d) := by
    show some (loadTransform t) = _
    rw [hok]
  rw [runMain, hld]
  dsimp only
  rw [hv]
  rfl

/-- Witness for the amended C3 at a concrete all-dropped table. -/
theorem c3_empty_witness :
    loadTransform ⟨[("lat"), ("lon"), ("year")], [[Cell.null, Cell.null, Cell.num ⟨2000, 0⟩]]⟩ =
      Except.ok ⟨[("reclat"), ("reclong"), ("year")], []⟩ ∧
    (⟨[("reclat"), ("reclong"), ("year")], []⟩ : Table).rows = [] ∧
    Table.colIdx ⟨[("reclat"), ("reclong"), ("year")], []⟩ ("year") = some 2 ∧
    (validYearsOf ⟨[("reclat"), ("reclong"), ("year")], []⟩ = Except.ok [] ∧
      last20 [] = [] ∧
      runMain (some ⟨[("lat"), ("lon"), ("year")], [[Cell.null, Cell.null, Cell.num ⟨2000, 0⟩]]⟩) =
        MainStatus.crashed PdError.valueError) :=
  ⟨by decide, by decide, by decide,
    c3_empty_amended _ _ 2 (by decide) (by decide) (by decide)⟩

/-- Counterexample to claim C7: normalization of a table with no year
column succeeds, but the program then raises `KeyError` at the
`df["year"]` access of line 51 instead of degrading gracefully. -/
theorem c7_no_year_counterexample :
    loadTransform ⟨[("lat"), ("lon")], [[Cell.num ⟨1, 0⟩, Cell.num ⟨2, 0⟩]]⟩ =
      Except.ok ⟨[("reclat"), ("reclong")], [[Cell.num ⟨1, 0⟩, Cell.num ⟨2, 0⟩]]⟩ ∧
    validYearsOf ⟨[("reclat"), ("reclong")], [[Cell.num ⟨1, 0⟩, Cell.num ⟨2, 0⟩]]⟩ =
      Except.error PdError.keyError ∧
    runMain (some ⟨[("lat"), ("lon")], [[Cell.num ⟨1, 0⟩, Cell.num ⟨2, 0⟩]]⟩) =
      MainStatus.crashed PdError.keyError := by
  exact ⟨by decide, by decide, by decide⟩

/-- Claim C7 amended: for every input table without a year column,
normalization itself succeeds and returns a Dataset with no year field;
but year-based features are not a graceful degraded mode: the script's
`valid_years` computation raises `KeyError` on that Dataset. -/
theorem c7_no_year_amended (t d : Table)
    (hok : loadTransform t = Except.ok d)
    (hy : (normCols t).hasCol ("year") = false) :
    d.hasCol ("year") = false ∧ validYearsOf d = Except.error PdError.keyError ∧
    runMain (some t) = MainStatus.crashed PdError.keyError := by
  have h1 : d.hasCol ("year") = false := (loadTransform_ok_year t d hok).trans hy
  have h2 : d.colIdx ("year") = none := by
    rcases hc : d.colIdx ("year") with _ | i
    · rfl
    · rw [Table.hasCol, hc] at h1
      cases h1
  have hv : validYearsOf d = Except.error PdError.keyError := by
    rw [validYearsOf, h2]
  have hld : load_data (some t) = some (Except.ok d) := by
    show some (loadTransform t) = _
    rw [hok]
  refine ⟨h1, hv, ?_⟩
  rw [runMain, hld]
  dsimp only
  rw [hv]

/-- Witness for the amended C7 at a concrete year-free table. -/
theorem c7_no_year_witness :
    loadTransform ⟨[("lat"), ("lon"), ("mass")],
        [[Cell.num ⟨3, 0⟩, Cell.num ⟨4, 0⟩, Cell.num ⟨50, 0⟩]]⟩ =
      Except.ok ⟨[("reclat"), ("reclong"), ("mass")],
        [[Cell.num ⟨3, 0⟩, Cell.num ⟨4, 0⟩, Cell.num ⟨50, 0⟩]]⟩ ∧
    (normCols ⟨[("lat"), ("lon"), ("mass")],
        [[Cell.num ⟨3, 0⟩, Cell.num ⟨4, 0⟩, Cell.num ⟨50, 0⟩]]⟩).hasCol ("year") = false ∧
    ((⟨[("reclat"), ("reclong"), ("mass")],
        [[Cell.num ⟨3, 0⟩, Cell.num ⟨4, 0⟩, Cell.num ⟨50, 0⟩]]⟩ : Table).hasCol ("year") = false ∧
      validYearsOf ⟨[("reclat"), ("reclong"), ("mass")],
        [[Cell.num ⟨3, 0⟩, Cell.num ⟨4, 0⟩, Cell.num ⟨50, 0⟩]]⟩ = Except.error PdError.keyError ∧
      runMain (some ⟨[("lat"), ("lon"), ("mass")],
        [[Cell.num ⟨3, 0⟩, Cell.num ⟨4, 0⟩, Cell.num ⟨50, 0⟩]]⟩) =
        MainStatus.crashed PdError.keyError) :=
  ⟨by decide, by decide, c7_no_year_amended _ _ (by decide) (by decide)⟩

/-! ## Cell and index lemmas -/

theorem getCell_set_ne {r : List Cell} {i j : Nat} (h : i ≠ j) (v : Cell) :
    getCell (r.set i v) j = getCell r j := by
  rw [getCell, getCell, List.getD_eq_getElem?_getD, List.getD_eq_getElem?_getD,
    List.getElem?_set_ne h]

theorem getCell_oob {r : List Cell} {i : Nat} (h : r.length ≤ i) : getCell r i = Cell.null := by
  rw [getCell, List.getD_eq_getElem?_getD, List.getElem?_eq_none h]
  rfl

theorem getCell_set_apply (r : List Cell) (i : Nat) (f : Cell → Cell)
    (hf : f Cell.null = Cell.null) :
    getCell (r.set i (f (getCell r i))) i = f (getCell r i) := by
  by_cases h : i < r.length
  · rw [getCell, List.getD_eq_getElem?_getD, List.getElem?_set_self h]
    rfl
  · rw [List.set_eq_of_length_le (by omega), getCell_oob (by omega), hf]

theorem colIdx_name {t : Table} {c : String} {i : Nat} (h : t.colIdx c = some i) :
    ∃ hlt : i < t.cols.length, t.cols[i] = c := by
  rw [Table.colIdx] at h
  obtain ⟨hlt, hp, _⟩ := List.findIdx?_eq_some_iff_getElem.mp h
  exact ⟨hlt, by simpa using hp⟩

theorem colIdx_ne {t : Table} {c₁ c₂ : String} {i j : Nat}
    (h1 : t.colIdx c₁ = some i) (h2 : t.colIdx c₂ = some j) (hne : c₁ ≠ c₂) : i ≠ j := by
  obtain ⟨hl1, he1⟩ := colIdx_name h1
  obtain ⟨hl2, he2⟩ := colIdx_name h2
  intro he
  subst he
  rw [he1] at he2
  exact hne he2

theorem mapCol_rows {t : Table} {c : String} {i : Nat} (h : t.colIdx c = some i)
    (f : Cell → Cell) :
    (t.mapCol c f).rows = t.rows.map (fun r => r.set i (f (getCell r i))) := by
  rw [Table.mapCol, h]

theorem mapCol_colIdx (t : Table) (c c' : String) (f : Cell → Cell) :
    (t.mapCol c f).colIdx c' = t.colIdx c' := by
  rw [Table.colIdx, Table.colIdx, mapCol_cols]

theorem nullAt_of_colIdx {t : Table} {c : String} {i : Nat} (h : t.colIdx c = some i)
    (r : List Cell) : nullAt t c r = (getCell r i).isNull := by
  rw [nullAt, h]

theorem hasCol_of_colIdx {t : Table} {c : String} {i : Nat} (h : t.colIdx c = some i) :
    t.hasCol c = true := by
  rw [Table.hasCol, h]
  rfl

theorem colIdx_of_hasCol {t : Table} {c : String} (h : t.hasCol c = true) :
    ∃ i, t.colIdx c = some i := by
  rw [Table.hasCol] at h
  exact Option.isSome_iff_exists.mp h

theorem colIdx_eq_of_cols {t u : Table} (c : String) (h : t.cols = u.cols) :
    t.colIdx c = u.colIdx c := by
  rw [Table.colIdx, Table.colIdx, h]

theorem dropnaSubset_pair {t u : Table} {c₁ c₂ : String}
    (h : dropnaSubset t [c₁, c₂] = Except.ok u) :
    t.hasCol c₁ = true ∧ t.hasCol c₂ = true ∧ u.cols = t.cols ∧
    u.rows = t.rows.filter (fun r => !nullAt t c₁ r && !nullAt t c₂ r) := by
  obtain ⟨hall, hu⟩ := (dropnaSubset_ok_iff _ _ _).mp h
  simp only [List.all_cons, List.all_nil, Bool.and_true, Bool.and_eq_true] at hall
  subst hu
  exact ⟨hall.1, hall.2, rfl, by simp only [List.all_cons, List.all_nil, Bool.and_true]⟩

theorem dropnaSubset_single {t u : Table} {c : String}
    (h : dropnaSubset t [c] = Except.ok u) :
    t.hasCol c = true ∧ u.cols = t.cols ∧
    u.rows = t.rows.filter (fun r => !nullAt t c r) := by
  obtain ⟨hall, hu⟩ := (dropnaSubset_ok_iff _ _ _).mp h
  simp only [List.all_cons, List.all_nil, Bool.and_true] at hall
  subst hu
  exact ⟨hall, rfl, by simp only [List.all_cons, List.all_nil, Bool.and_true]⟩

theorem dropnaSubset_single_ok (t : Table) (c : String) (h : t.hasCol c = true) :
    dropnaSubset t [c] =
      Except.ok ⟨t.cols, t.rows.filter (fun r => !nullAt t c r)⟩ := by
  rw [(dropnaSubset_ok_iff _ _ _)]
  refine ⟨by simp only [List.all_cons, List.all_nil, Bool.and_true]; exact h, ?_⟩
  simp only [List.all_cons, List.all_nil, Bool.and_true]

theorem toNumericCell_not_null {c : Cell} (h : (toNumericCell c).isNull = false) :
    ∃ dec, toNumericCell c = Cell.num dec := by
  cases hc : toNumericCell c with
  | null => rw [hc] at h; cases h
  | num d => exact ⟨d, rfl⟩
  | str s =>
    exfalso
    cases c with
    | null => cases hc
    | num d => cases hc
    | str s' =>
      rw [toNumericCell] at hc
      rcases hp : parseNum s' with _ | d <;> rw [hp] at hc <;> cases hc

/-! ## Master invariant of normalization (claims C6, C9) -/

theorem yearStep_no_year {t : Table} (h : t.hasCol ("year") = false) :
    yearStep t = Except.ok t := by
  rw [yearStep, h]
  rfl

theorem yearStep_decompose {t d : Table} {yi : Nat}
    (hy : t.colIdx ("year") = some yi) (h : yearStep t = Except.ok d) :
    d.cols = t.cols ∧
    d.rows = ((t.rows.map (fun r => r.set yi (toNumericCell (getCell r yi)))).filter
        (fun r => !(getCell r yi).isNull)).map
      (fun r => r.set yi (truncCell (getCell r yi))) := by
  rw [yearStep, hasCol_of_colIdx hy] at h
  simp only [if_true] at h
  have hyu : (t.mapCol ("year") toNumericCell).colIdx ("year") = some yi := by
    rw [mapCol_colIdx]
    exact hy
  rw [dropnaSubset_single_ok _ _ (hasCol_of_colIdx hyu)] at h
  simp only [Except.map] at h
  cases h
  constructor
  · rw [mapCol_cols]
    show (Table.mapCol _ _ _).cols = t.cols
    rw [mapCol_cols]
  · have hcols :
        (⟨(t.mapCol ("year") toNumericCell).cols,
          (t.mapCol ("year") toNumericCell).rows.filter
            (fun r => !nullAt (t.mapCol ("year") toNumericCell) ("year") r)⟩ : Table).colIdx
          ("year") = some yi := by
      rw [Table.colIdx]
      show List.findIdx? _ (t.mapCol ("year") toNumericCell).cols = some yi
      rw [← Table.colIdx, mapCol_colIdx]
      exact hy
    rw [mapCol_rows hcols]
    show ((t.mapCol ("year") toNumericCell).rows.filter _).map _ = _
    rw [mapCol_rows hy]
    congr 1
    apply List.filter_congr
    intro r _
    rw [nullAt_of_colIdx hyu]

theorem loadTransform_decompose {t d : Table} (h : loadTransform t = Except.ok d) :
    ∃ t2 t3, coordStep (normCols t) = Except.ok t2 ∧
      dropnaSubset t2 [("reclat"), ("reclong")] = Except.ok t3 ∧
      yearStep t3 = Except.ok d := by
  rw [loadTransform] at h
  obtain ⟨t2, h2, h3⟩ := except_bind_ok h
  obtain ⟨t3, h4, h5⟩ := except_bind_ok h3
  exact ⟨t2, t3, h2, h4, h5⟩

theorem loadTransform_ok_inv (t d : Table) (h : loadTransform t = Except.ok d) :
    ∃ i j, d.colIdx ("reclat") = some i ∧ d.colIdx ("reclong") = some j ∧
      (∀ r ∈ d.rows, (getCell r i).isNull = false ∧ (getCell r j).isNull = false) ∧
      ∀ yi, d.colIdx ("year") = some yi →
        ∀ r ∈ d.rows, ∃ n : Int, getCell r yi = Cell.num ⟨n, 0⟩ := by
  obtain ⟨t2, t3, h2, h4, h5⟩ := loadTransform_decompose h
  obtain ⟨hc1, hc2, hcols3, hrows3⟩ := dropnaSubset_pair h4
  obtain ⟨i, hi⟩ := colIdx_of_hasCol hc1
  obtain ⟨j, hj⟩ := colIdx_of_hasCol hc2
  have hi3 : t3.colIdx ("reclat") = some i := by rw [colIdx_eq_of_cols _ hcols3]; exact hi
  have hj3 : t3.colIdx ("reclong") = some j := by rw [colIdx_eq_of_cols _ hcols3]; exact hj
  have hmem3 : ∀ r ∈ t3.rows, (getCell r i).isNull = false ∧ (getCell r j).isNull = false := by
    intro r hr
    rw [hrows3] at hr
    obtain ⟨-, hcond⟩ := List.mem_filter.mp hr
    rw [nullAt_of_colIdx hi, nullAt_of_colIdx hj] at hcond
    simp only [Bool.and_eq_true, Bool.not_eq_true'] at hcond
    exact hcond
  by_cases hy : t3.hasCol ("year") = true
  · obtain ⟨yi, hyi⟩ := colIdx_of_hasCol hy
    have hd := yearStep_decompose hyi h5
    have hdi : d.colIdx ("reclat") = some i := by rw [colIdx_eq_of_cols _ hd.1]; exact hi3
    have hdj : d.colIdx ("reclong") = some j := by rw [colIdx_eq_of_cols _ hd.1]; exact hj3
    have hdy : d.colIdx ("year") = some yi := by rw [colIdx_eq_of_cols _ hd.1]; exact hyi
    have hiy : i ≠ yi := colIdx_ne hi3 hyi (by decide)
    have hjy : j ≠ yi := colIdx_ne hj3 hyi (by decide)
    refine ⟨i, j, hdi, hdj, ?_, ?_⟩
    · intro r hr
      rw [hd.2] at hr
      obtain ⟨r', hr', rfl⟩ := List.mem_map.mp hr
      obtain ⟨hmem, -⟩ := List.mem_filter.mp hr'
      obtain ⟨r0, hr0, rfl⟩ := List.mem_map.mp hmem
      rw [getCell_set_ne (fun hh => hiy hh.symm), getCell_set_ne (fun hh => hiy hh.symm),
        getCell_set_ne (fun hh => hjy hh.symm), getCell_set_ne (fun hh => hjy hh.symm)]
      exact hmem3 r0 hr0
    · intro yi' hyi' r hr
      rw [hdy] at hyi'
      cases hyi'
      rw [hd.2] at hr
      obtain ⟨r', hr', rfl⟩ := List.mem_map.mp hr
      obtain ⟨hr'', hcond⟩ := List.mem_filter.mp hr'
      rw [Bool.not_eq_true'] at hcond
      rw [getCell_set_apply _ _ _ rfl]
      obtain ⟨r0, hr0, rfl⟩ := List.mem_map.mp hr''
      rw [getCell_set_apply _ _ _ rfl] at hcond ⊢
      obtain ⟨dec, hdec⟩ := toNumericCell_not_null hcond
      rw [hdec]
      exact ⟨decTrunc dec, rfl⟩
  · have hyn : t3.hasCol ("year") = false := by
      cases hcase : t3.hasCol ("year")
      · rfl
      · exact absurd hcase hy
    rw [yearStep_no_year hyn] at h5
    cases h5
    refine ⟨i, j, hi3, hj3, hmem3, ?_⟩
    intro yi hyi
    rw [Table.hasCol, hyi] at hyn
    cases hyn

/-- Counterexample to claim C6: a table with coordinates but no year
column normalizes successfully to a Dataset with a retained record, yet
that record has no year value at all (the Dataset has no year column), so
not every retained record has a non-null numeric year. -/
theorem c6_invariant_counterexample :
    loadTransform ⟨[("lat"), ("lon")], [[Cell.num ⟨7, 0⟩, Cell.num ⟨8, 0⟩]]⟩ =
      Except.ok ⟨[("reclat"), ("reclong")], [[Cell.num ⟨7, 0⟩, Cell.num ⟨8, 0⟩]]⟩ ∧
    (⟨[("reclat"), ("reclong")], [[Cell.num ⟨7, 0⟩, Cell.num ⟨8, 0⟩]]⟩ : Table).rows ≠ [] ∧
    Table.colIdx ⟨[("reclat"), ("reclong")], [[Cell.num ⟨7, 0⟩, Cell.num ⟨8, 0⟩]]⟩ ("year") =
      none := by
  exact ⟨by decide, by decide, by decide⟩

/-- Claim C6 amended: after normalization every retained record has
non-null canonical latitude and longitude values, and — when the Dataset
has a year column — a non-null integer year; Datasets without a year
column carry no year value at all. -/
theorem c6_invariant_amended (t d : Table) (h : loadTransform t = Except.ok d) :
    ∃ i j, d.colIdx ("reclat") = some i ∧ d.colIdx ("reclong") = some j ∧
      (∀ r ∈ d.rows, (getCell r i).isNull = false ∧ (getCell r j).isNull = false) ∧
      ∀ yi, d.colIdx ("year") = some yi →
        ∀ r ∈ d.rows, ∃ n : Int, getCell r yi = Cell.num ⟨n, 0⟩ :=
  loadTransform_ok_inv t d h

/-- A concrete two-row input with coordinates and a year column. -/
def sampleYearTable : Table :=
  ⟨[("lat"), ("lon"), ("year")],
    [[Cell.num ⟨7, 0⟩, Cell.num ⟨8, 0⟩, Cell.str ("2001.0")],
     [Cell.null, Cell.num ⟨9, 0⟩, Cell.num ⟨1999, 0⟩]]⟩

/-- The normalization of `sampleYearTable`. -/
def sampleYearOut : Table :=
  ⟨[("reclat"), ("reclong"), ("year")],
    [[Cell.num ⟨7, 0⟩, Cell.num ⟨8, 0⟩, Cell.num ⟨2001, 0⟩]]⟩

/-- Witness for the amended C6 at a concrete table with year column. -/
theorem c6_invariant_witness :
    loadTransform sampleYearTable = Except.ok sampleYearOut ∧
    (∃ i j, sampleYearOut.colIdx ("reclat") = some i ∧
      sampleYearOut.colIdx ("reclong") = some j ∧
      (∀ r ∈ sampleYearOut.rows,
        (getCell r i).isNull = false ∧ (getCell r j).isNull = false) ∧
      ∀ yi, sampleYearOut.colIdx ("year") = some yi →
        ∀ r ∈ sampleYearOut.rows, ∃ n : Int, getCell r yi = Cell.num ⟨n, 0⟩) :=
  ⟨by decide, c6_invariant_amended sampleYearTable sampleYearOut (by decide)⟩

/-! ## Rename-tracking lemmas (claim C4) -/

theorem findIdx?_congr_acc {α : Type} {p q : α → Bool} (l : List α)
    (h : ∀ x ∈ l, p x = q x) : ∀ i, List.findIdx? p l i = List.findIdx? q l i := by
  induction l with
  | nil => intro i; rfl
  | cons a l ih =>
    intro i
    rw [List.findIdx?_cons, List.findIdx?_cons, h a (List.mem_cons_self a l)]
    by_cases hq : q a = true
    · rw [if_pos hq, if_pos hq]
    · rw [if_neg hq, if_neg hq]
      exact ih (fun x hx => h x (List.mem_cons_of_mem a hx)) (i + 1)

theorem mem_false_of_hasCol_false {t : Table} {c : String} (h : t.hasCol c = false) :
    ∀ x ∈ t.cols, (x == c) = false := by
  rw [hasCol_any] at h
  intro x hx
  by_cases hxc : (x == c) = true
  · exfalso
    have : t.cols.any (fun x => x == c) = true := List.any_eq_true.mpr ⟨x, hx, hxc⟩
    rw [h] at this
    cases this
  · exact Bool.not_eq_true _ |>.mp hxc

theorem ren1_colIdx_reclat {t : Table} (h : t.hasCol ("reclat") = false) :
    (renameCols t ren1).colIdx ("reclat") = t.colIdx ("lat") := by
  rw [Table.colIdx, Table.colIdx, renameCols, List.findIdx?_map]
  exact findIdx?_congr_acc t.cols (fun x hx => by
    have hne := mem_false_of_hasCol_false h x hx
    rw [Function.comp_apply, ren1]
    split_ifs with h1 h2 <;> simp_all) 0

theorem ren1_colIdx_reclong {t : Table} (h : t.hasCol ("reclong") = false) :
    (renameCols t ren1).colIdx ("reclong") = t.colIdx ("lon") := by
  rw [Table.colIdx, Table.colIdx, renameCols, List.findIdx?_map]
  exact findIdx?_congr_acc t.cols (fun x hx => by
    have hne := mem_false_of_hasCol_false h x hx
    rw [Function.comp_apply, ren1]
    split_ifs with h1 h2 <;> simp_all) 0

theorem ren1_colIdx_year (t : Table) :
    (renameCols t ren1).colIdx ("year") = t.colIdx ("year") := by
  rw [Table.colIdx, Table.colIdx, renameCols, List.findIdx?_map]
  exact findIdx?_congr_acc t.cols (fun x _ => by
    rw [Function.comp_apply]
    exact ren1_beq_year x) 0

theorem dropnaSubset_pair_ok (t : Table) (c₁ c₂ : String)
    (h1 : t.hasCol c₁ = true) (h2 : t.hasCol c₂ = true) :
    dropnaSubset t [c₁, c₂] =
      Except.ok ⟨t.cols, t.rows.filter (fun r => !nullAt t c₁ r && !nullAt t c₂ r)⟩ := by
  rw [dropnaSubset_ok_iff]
  refine ⟨by simp only [List.all_cons, List.all_nil, Bool.and_true, h1, h2], ?_⟩
  simp only [List.all_cons, List.all_nil, Bool.and_true]

/-- Counterexample to claim C4: a `lat`/`lon` table whose `lat` value is
the non-numeric string "abc" keeps that row (only missing values are
dropped), so the row count is 1 and not `1 - 1 = 0` as the claim's
"minus the rows whose coordinate values are non-numeric" demands. -/
theorem c4_latlon_counterexample :
    loadTransform ⟨[("lat"), ("lon")], [[Cell.str ("abc"), Cell.num ⟨1, 0⟩]]⟩ =
      Except.ok ⟨[("reclat"), ("reclong")], [[Cell.str ("abc"), Cell.num ⟨1, 0⟩]]⟩ ∧
    ((⟨[("lat"), ("lon")], [[Cell.str ("abc"), Cell.num ⟨1, 0⟩]]⟩ : Table).rows.filter
        (fun r => nonNumericCell (getCell r 0) || nonNumericCell (getCell r 1))).length = 1 ∧
    (⟨[("reclat"), ("reclong")], [[Cell.str ("abc"), Cell.num ⟨1, 0⟩]]⟩ : Table).rows.length ≠
      (⟨[("lat"), ("lon")], [[Cell.str ("abc"), Cell.num ⟨1, 0⟩]]⟩ : Table).rows.length - 1 := by
  exact ⟨by decide, by decide, by decide⟩

/-- Claim C4 amended: for every input table with (normalized) columns
`lat` and `lon` (and no pre-existing canonical columns), normalization
renames them in place to `reclat`/`reclong`; the resulting row count is
the original count minus the rows whose `lat` or `lon` value is missing
(null — non-numeric strings are kept) and, when a year column exists,
minus the rows whose year value fails numeric coercion. -/
theorem c4_latlon_amended (t : Table) (li lj : Nat)
    (hla : (normCols t).colIdx ("lat") = some li)
    (hlo : (normCols t).colIdx ("lon") = some lj)
    (hra : (normCols t).hasCol ("reclat") = false)
    (hrl : (normCols t).hasCol ("reclong") = false) :
    ∃ d, loadTransform t = Except.ok d ∧
      d.cols = (normCols t).cols.map ren1 ∧
      d.colIdx ("reclat") = some li ∧ d.colIdx ("reclong") = some lj ∧
      ((normCols t).colIdx ("year") = none →
        d.rows.length = (t.rows.filter (fun r =>
          !(getCell r li).isNull && !(getCell r lj).isNull)).length) ∧
      (∀ yi, (normCols t).colIdx ("year") = some yi →
        d.rows.length = (t.rows.filter (fun r =>
          !(getCell r li).isNull && !(getCell r lj).isNull &&
          !(toNumericCell (getCell r yi)).isNull)).length) := by
  have hb1 : ((normCols t).hasCol ("lat") && (normCols t).hasCol ("lon")) = true := by
    rw [hasCol_of_colIdx hla, hasCol_of_colIdx hlo]
    rfl
  have hcoord : coordStep (normCols t) = Except.ok (renameCols (normCols t) ren1) := by
    rw [coordStep, hb1]
    rfl
  have hi2 : (renameCols (normCols t) ren1).colIdx ("reclat") = some li := by
    rw [ren1_colIdx_reclat hra]
    exact hla
  have hj2 : (renameCols (normCols t) ren1).colIdx ("reclong") = some lj := by
    rw [ren1_colIdx_reclong hrl]
    exact hlo
  have hdrop := dropnaSubset_pair_ok (renameCols (normCols t) ren1) ("reclat") ("reclong")
    (hasCol_of_colIdx hi2) (hasCol_of_colIdx hj2)
  have hrows2 : (renameCols (normCols t) ren1).rows = t.rows := rfl
  have hrows3 :
      ((renameCols (normCols t) ren1).rows.filter
        (fun r => !nullAt (renameCols (normCols t) ren1) ("reclat") r &&
          !nullAt (renameCols (normCols t) ren1) ("reclong") r)) =
      t.rows.filter (fun r => !(getCell r li).isNull && !(getCell r lj).isNull) := by
    rw [hrows2]
    apply List.filter_congr
    intro r _
    rw [nullAt_of_colIdx hi2, nullAt_of_colIdx hj2]
  have hcols3 : (renameCols (normCols t) ren1).cols = (normCols t).cols.map ren1 := rfl
  have hyear3 :
      (⟨(renameCols (normCols t) ren1).cols,
        (renameCols (normCols t) ren1).rows.filter
          (fun r => !nullAt (renameCols (normCols t) ren1) ("reclat") r &&
            !nullAt (renameCols (normCols t) ren1) ("reclong") r)⟩ : Table).colIdx ("year") =
      (normCols t).colIdx ("year") := by
    rw [Table.colIdx]
    show List.findIdx? _ (renameCols (normCols t) ren1).cols = _
    rw [← Table.colIdx, ren1_colIdx_year]
  rcases hy : (normCols t).colIdx ("year") with _ | yi
  · -- no year column
    have hys : yearStep
        ⟨(renameCols (normCols t) ren1).cols,
          (renameCols (normCols t) ren1).rows.filter
            (fun r => !nullAt (renameCols (normCols t) ren1) ("reclat") r &&
              !nullAt (renameCols (normCols t) ren1) ("reclong") r)⟩ =
        Except.ok
        ⟨(renameCols (normCols t) ren1).cols,
          (renameCols (normCols t) ren1).rows.filter
            (fun r => !nullAt (renameCols (normCols t) ren1) ("reclat") r &&
              !nullAt (renameCols (normCols t) ren1) ("reclong") r)⟩ := by
      apply yearStep_no_year
      rw [Table.hasCol, hyear3, hy]
      rfl
    refine ⟨⟨(renameCols (normCols t) ren1).cols,
      (renameCols (normCols t) ren1).rows.filter
        (fun r => !nullAt (renameCols (normCols t) ren1) ("reclat") r &&
          !nullAt (renameCols (normCols t) ren1) ("reclong") r)⟩, ?_, ?_, ?_, ?_, ?_, ?_⟩
    · rw [loadTransform, hcoord]
      show (dropnaSubset (renameCols (normCols t) ren1) _).bind yearStep = _
      rw [hdrop]
      show yearStep _ = _
      exact hys
    · exact hcols3
    · exact hi2
    · exact hj2
    · intro _
      show ((renameCols (normCols t) ren1).rows.filter _).length = _
      rw [hrows3]
    · intro yi hyi
      cases hyi
  · -- year column present
    have hy3 :
        (⟨(renameCols (normCols t) ren1).cols,
          (renameCols (normCols t) ren1).rows.filter
            (fun r => !nullAt (renameCols (normCols t) ren1) ("reclat") r &&
              !nullAt (renameCols (normCols t) ren1) ("reclong") r)⟩ : Table).colIdx ("year") =
        some yi := by
      rw [hyear3, hy]
    rcases hys : yearStep
        ⟨(renameCols (normCols t) ren1).cols,
          (renameCols (normCols t) ren1).rows.filter
            (fun r => !nullAt (renameCols (normCols t) ren1) ("reclat") r &&
              !nullAt (renameCols (normCols t) ren1) ("reclong") r)⟩ with e | d
    · exfalso
      rw [yearStep, hasCol_of_colIdx hy3] at hys
      simp only [if_true] at hys
      rw [dropnaSubset_single_ok _ _ (by
        rw [Table.hasCol, mapCol_colIdx, hy3]
        rfl)] at hys
      simp only [Except.map] at hys
      cases hys
    · have hdec := yearStep_decompose hy3 hys
      refine ⟨d, ?_, ?_, ?_, ?_, ?_, ?_⟩
      · rw [loadTransform, hcoord]
        show (dropnaSubset (renameCols (normCols t) ren1) _).bind yearStep = _
        rw [hdrop]
        show yearStep _ = _
        exact hys
      · rw [hdec.1]
        exact hcols3
      · rw [colIdx_eq_of_cols _ hdec.1]
        exact hi2
      · rw [colIdx_eq_of_cols _ hdec.1]
        exact hj2
      · intro hnone
        cases hnone
      · intro yi' hyi'
        cases hyi'
        rw [hdec.2]
        dsimp only
        rw [List.length_map, List.filter_map, List.length_map, hrows3, List.filter_filter]
        apply congrArg
        apply List.filter_congr
        intro r _
        rw [Function.comp_apply, getCell_set_apply _ _ _ rfl]
        exact (by decide : ∀ x y z : Bool, ((!x) && ((!y) && (!z))) = (((!y) && (!z)) && (!x)))
          ((toNumericCell (getCell r yi)).isNull) ((getCell r li).isNull)
          ((getCell r lj).isNull)

/-- A concrete `lat`/`lon` input, with messy header case, one missing
coordinate, one non-numeric year and one non-numeric coordinate. -/
def c4SampleIn : Table :=
  ⟨[("Lat "), ("LON"), ("year"), ("mass")],
    [[Cell.num ⟨1, 0⟩, Cell.num ⟨2, 0⟩, Cell.num ⟨2000, 0⟩, Cell.num ⟨5, 0⟩],
     [Cell.null, Cell.num ⟨3, 0⟩, Cell.num ⟨2001, 0⟩, Cell.num ⟨6, 0⟩],
     [Cell.num ⟨4, 0⟩, Cell.num ⟨5, 0⟩, Cell.str ("bad"), Cell.num ⟨7, 0⟩],
     [Cell.str ("abc"), Cell.num ⟨6, 0⟩, Cell.num ⟨2002, 0⟩, Cell.num ⟨8, 0⟩]]⟩

/-- Witness for the amended C4 at `c4SampleIn`. -/
theorem c4_latlon_witness :
    ((normCols c4SampleIn).colIdx ("lat") = some 0) ∧
    ((normCols c4SampleIn).colIdx ("lon") = some 1) ∧
    ((normCols c4SampleIn).hasCol ("reclat") = false) ∧
    ((normCols c4SampleIn).hasCol ("reclong") = false) ∧
    (∃ d, loadTransform c4SampleIn = Except.ok d ∧
      d.cols = (normCols c4SampleIn).cols.map ren1 ∧
      d.colIdx ("reclat") = some 0 ∧ d.colIdx ("reclong") = some 1 ∧
      ((normCols c4SampleIn).colIdx ("year") = none →
        d.rows.length = (c4SampleIn.rows.filter (fun r =>
          !(getCell r 0).isNull && !(getCell r 1).isNull)).length) ∧
      (∀ yi, (normCols c4SampleIn).colIdx ("year") = some yi →
        d.rows.length = (c4SampleIn.rows.filter (fun r =>
          !(getCell r 0).isNull && !(getCell r 1).isNull &&
          !(toNumericCell (getCell r yi)).isNull)).length)) :=
  ⟨by decide, by decide, by decide, by decide,
    c4_latlon_amended c4SampleIn 0 1 (by decide) (by decide) (by decide) (by decide)⟩

/-! ## Geolocation-branch lemmas (claims C5, C9) -/

theorem colIdx_none_of_hasCol_false {t : Table} {c : String} (h : t.hasCol c = false) :
    t.colIdx c = none := by
  rcases hc : t.colIdx c with _ | i
  · rfl
  · rw [Table.hasCol, hc] at h
    cases h

theorem getCell_append_lt {r : List Cell} {k : Nat} (h : k < r.length) (l : List Cell) :
    getCell (r ++ l) k = getCell r k := by
  rw [getCell, getCell, List.getD_eq_getElem?_getD, List.getD_eq_getElem?_getD,
    List.getElem?_append_left h]

theorem getCell_append_pair₀ (r : List Cell) (v₁ v₂ : Cell) :
    getCell (r ++ [v₁, v₂]) r.length = v₁ := by
  rw [getCell, List.getD_eq_getElem?_getD, List.getElem?_append_right (le_refl _),
    Nat.sub_self]
  rfl

theorem getCell_append_pair₁ (r : List Cell) (v₁ v₂ : Cell) :
    getCell (r ++ [v₁, v₂]) (r.length + 1) = v₂ := by
  rw [getCell, List.getD_eq_getElem?_getD,
    List.getElem?_append_right (by omega : r.length ≤ r.length + 1)]
  have : r.length + 1 - r.length = 1 := by omega
  rw [this]
  rfl

theorem findIdx?_append_all_false {α : Type} {p : α → Bool} {l₁ : List α} (l₂ : List α)
    (h : ∀ x ∈ l₁, p x = false) :
    ∀ i, List.findIdx? p (l₁ ++ l₂) i = List.findIdx? p l₂ (i + l₁.length) := by
  induction l₁ with
  | nil => intro i; simp
  | cons a l₁ ih =>
    intro i
    rw [List.cons_append, List.findIdx?_cons, h a (List.mem_cons_self a l₁)]
    rw [if_neg (by intro hh; cases hh)]
    rw [ih (fun x hx => h x (List.mem_cons_of_mem a hx)) (i + 1)]
    apply congrArg
    simp only [List.length_cons]
    omega

theorem findIdx?_append_of_some {α : Type} {p : α → Bool} {l₁ : List α} (l₂ : List α) :
    ∀ {i j : Nat}, List.findIdx? p l₁ i = some j → List.findIdx? p (l₁ ++ l₂) i = some j := by
  induction l₁ with
  | nil => intro i j h; cases h
  | cons a l₁ ih =>
    intro i j h
    rw [List.findIdx?_cons] at h
    rw [List.cons_append, List.findIdx?_cons]
    by_cases hp : p a = true
    · rw [if_pos hp] at h ⊢
      exact h
    · rw [if_neg hp] at h ⊢
      exact ih h

theorem geoAssign_fresh {t : Table} (k : Nat)
    (hra : t.hasCol ("reclat") = false) (hrl : t.hasCol ("reclong") = false)
    (hk : k < t.cols.length) (hRect : t.Rect) :
    geoAssign t k = ⟨t.cols ++ [("reclat"), ("reclong")],
      t.rows.map (fun r => r ++ [toNumericCell (geoField (getCell r k) 0),
        toNumericCell (geoField (getCell r k) 1)])⟩ := by
  have hinner : t.setCol ("reclat") (fun r => toNumericCell (geoField (getCell r k) 0)) =
      ⟨t.cols ++ [("reclat")],
        t.rows.map (fun r => r ++ [toNumericCell (geoField (getCell r k) 0)])⟩ := by
    rw [Table.setCol, colIdx_none_of_hasCol_false hra]
  rw [geoAssign, hinner]
  have hrl2 : (⟨t.cols ++ [("reclat")],
      t.rows.map (fun r => r ++ [toNumericCell (geoField (getCell r k) 0)])⟩ : Table).colIdx
        ("reclong") = none := by
    apply colIdx_none_of_hasCol_false
    rw [hasCol_any]
    show (t.cols ++ [("reclat")]).any (fun x => x == ("reclong")) = false
    rw [List.any_append]
    rw [hasCol_any] at hrl
    rw [hrl]
    rfl
  rw [Table.setCol, hrl2]
  apply congrArg₂ Table.mk
  · exact List.append_assoc _ _ _
  · rw [List.map_map]
    apply List.map_congr_left
    intro r hr
    have hlen : k < r.length := by rw [hRect r hr]; exact hk
    rw [Function.comp_apply, getCell_append_lt hlen, List.append_assoc]
    rfl

theorem foldr_max_le_of_mem {L : List Nat} : ∀ x ∈ L, x ≤ L.foldr max 1 := by
  induction L with
  | nil => intro x hx; cases hx
  | cons a L ih =>
    intro x hx
    rw [List.foldr_cons]
    rcases List.mem_cons.mp hx with rfl | hx
    · exact le_max_left _ _
    · exact le_trans (ih x hx) (le_max_right _ _)

theorem foldr_max_eq_of_all {L : List Nat} (hne : L ≠ []) (h : ∀ x ∈ L, x = 2) :
    L.foldr max 1 = 2 := by
  induction L with
  | nil => cases hne rfl
  | cons a L ih =>
    rw [List.foldr_cons, h a (List.mem_cons_self a L)]
    cases L with
    | nil => rfl
    | cons b L' =>
      rw [ih (by intro hh; cases hh) (fun x hx => h x (List.mem_cons_of_mem a hx))]
      exact max_self 2

theorem geo_ok_spec (t d : Table) (k : Nat)
    (hb1 : ((normCols t).hasCol ("lat") && (normCols t).hasCol ("lon")) = false)
    (hb2 : ((normCols t).hasCol ("latitude") && (normCols t).hasCol ("longitude")) = false)
    (hgeo : (normCols t).colIdx ("geolocation") = some k)
    (hra : (normCols t).hasCol ("reclat") = false)
    (hrl : (normCols t).hasCol ("reclong") = false)
    (hRect : t.Rect)
    (hok : loadTransform t = Except.ok d) :
    d.cols = (normCols t).cols ++ [("reclat"), ("reclong")] ∧
    d.colIdx ("reclat") = some (normCols t).cols.length ∧
    d.colIdx ("reclong") = some ((normCols t).cols.length + 1) ∧
    d.colIdx ("geolocation") = some k ∧
    ∀ r ∈ d.rows,
      getCell r ((normCols t).cols.length) = toNumericCell (geoField (getCell r k) 0) ∧
      getCell r ((normCols t).cols.length + 1) = toNumericCell (geoField (getCell r k) 1) ∧
      (getCell r ((normCols t).cols.length)).isNull = false ∧
      (getCell r ((normCols t).cols.length + 1)).isNull = false ∧
      geoWidth (getCell r k) ≤ 2 := by
  obtain ⟨t2, t3, h2, h4, h5⟩ := loadTransform_decompose hok
  rw [coordStep, hb1, hb2] at h2
  simp only [Bool.false_eq_true, if_false] at h2
  rw [hasCol_of_colIdx hgeo] at h2
  simp only [if_true] at h2
  obtain ⟨k', hk', hwidth, ht2⟩ := geoBranch_ok _ _ h2
  rw [hgeo] at hk'
  cases hk'
  obtain ⟨hkl, -⟩ := colIdx_name hgeo
  have hRectN : (normCols t).Rect := by
    intro r hr
    rw [normCols, List.length_map]
    exact hRect r hr
  rw [geoAssign_fresh k hra hrl hkl hRectN] at ht2
  subst ht2
  -- column indices of the extended table
  have hi2 : ∀ i, List.findIdx? (fun x => x == ("reclat"))
      ((normCols t).cols ++ [("reclat"), ("reclong")]) i = some (i + (normCols t).cols.length) := by
    intro i
    rw [findIdx?_append_all_false _ (mem_false_of_hasCol_false hra), List.findIdx?_cons]
    rw [if_pos (by rfl)]
  have hj2 : ∀ i, List.findIdx? (fun x => x == ("reclong"))
      ((normCols t).cols ++ [("reclat"), ("reclong")]) i =
        some (i + (normCols t).cols.length + 1) := by
    intro i
    rw [findIdx?_append_all_false _ (mem_false_of_hasCol_false hrl), List.findIdx?_cons]
    rw [if_neg (by intro hh; cases hh), List.findIdx?_cons, if_pos (by rfl)]
  obtain ⟨hc1, hc2, hcols3, hrows3⟩ := dropnaSubset_pair h4
  have hi3 : t3.colIdx ("reclat") = some ((normCols t).cols.length) := by
    rw [colIdx_eq_of_cols _ hcols3]
    show List.findIdx? _ _ 0 = _
    rw [hi2 0, Nat.zero_add]
  have hj3 : t3.colIdx ("reclong") = some ((normCols t).cols.length + 1) := by
    rw [colIdx_eq_of_cols _ hcols3]
    show List.findIdx? _ _ 0 = _
    rw [hj2 0, Nat.zero_add]
  have hk3 : t3.colIdx ("geolocation") = some k := by
    rw [colIdx_eq_of_cols _ hcols3]
    show List.findIdx? _ _ 0 = _
    exact findIdx?_append_of_some _ hgeo
  -- per-row property on the rows that survive the coordinate dropna
  have hwle : ∀ r0 ∈ (normCols t).rows, geoWidth (getCell r0 k) ≤ 2 := by
    intro r0 hr0
    rcases Bool.or_eq_true_iff.mp hwidth with he | hw2
    · rw [List.isEmpty_iff.mp he] at hr0
      cases hr0
    · have hmm : geoWidth (getCell r0 k) ∈
          (normCols t).rows.map (fun r => geoWidth (getCell r k)) :=
        List.mem_map.mpr ⟨r0, hr0, rfl⟩
      have hb := foldr_max_le_of_mem (geoWidth (getCell r0 k)) hmm
      have he2 : ((normCols t).rows.map (fun r => geoWidth (getCell r k))).foldr max 1 = 2 :=
        beq_iff_eq.mp hw2
      omega
  have hprop3 : ∀ r ∈ t3.rows,
      getCell r ((normCols t).cols.length) = toNumericCell (geoField (getCell r k) 0) ∧
      getCell r ((normCols t).cols.length + 1) = toNumericCell (geoField (getCell r k) 1) ∧
      (getCell r ((normCols t).cols.length)).isNull = false ∧
      (getCell r ((normCols t).cols.length + 1)).isNull = false ∧
      geoWidth (getCell r k) ≤ 2 := by
    intro r hr
    rw [hrows3] at hr
    obtain ⟨hmem, hcond⟩ := List.mem_filter.mp hr
    obtain ⟨r0, hr0, rfl⟩ := List.mem_map.mp hmem
    have hlen : r0.length = (normCols t).cols.length := hRectN r0 hr0
    have hklt : k < r0.length := by omega
    have e0 : getCell (r0 ++ [toNumericCell (geoField (getCell r0 k) 0),
        toNumericCell (geoField (getCell r0 k) 1)]) ((normCols t).cols.length) =
        toNumericCell (geoField (getCell r0 k) 0) := by
      rw [← hlen]
      exact getCell_append_pair₀ _ _ _
    have e1 : getCell (r0 ++ [toNumericCell (geoField (getCell r0 k) 0),
        toNumericCell (geoField (getCell r0 k) 1)]) ((normCols t).cols.length + 1) =
        toNumericCell (geoField (getCell r0 k) 1) := by
      rw [← hlen]
      exact getCell_append_pair₁ _ _ _
    have ek : getCell (r0 ++ [toNumericCell (geoField (getCell r0 k) 0),
        toNumericCell (geoField (getCell r0 k) 1)]) k = getCell r0 k :=
      getCell_append_lt hklt _
    rw [nullAt_of_colIdx (by
        show Table.colIdx ⟨(normCols t).cols ++ [("reclat"), ("reclong")], _⟩ _ = _
        show List.findIdx? _ _ 0 = _
        rw [hi2 0, Nat.zero_add]),
      nullAt_of_colIdx (by
        show Table.colIdx ⟨(normCols t).cols ++ [("reclat"), ("reclong")], _⟩ _ = _
        show List.findIdx? _ _ 0 = _
        rw [hj2 0, Nat.zero_add])] at hcond
    simp only [Bool.and_eq_true, Bool.not_eq_true'] at hcond
    rw [ek, e0, e1]
    exact ⟨rfl, rfl, by rw [← e0]; exact hcond.1, by rw [← e1]; exact hcond.2, hwle r0 hr0⟩
  -- push the property through the year step
  by_cases hy : t3.hasCol ("year") = true
  · obtain ⟨yi, hyi⟩ := colIdx_of_hasCol hy
    have hd := yearStep_decompose hyi h5
    have hne1 : ((normCols t).cols.length) ≠ yi := colIdx_ne hi3 hyi (by decide)
    have hne2 : ((normCols t).cols.length + 1) ≠ yi := colIdx_ne hj3 hyi (by decide)
    have hnek : k ≠ yi := colIdx_ne hk3 hyi (by decide)
    refine ⟨by rw [hd.1, hcols3], by rw [colIdx_eq_of_cols _ hd.1]; exact hi3,
      by rw [colIdx_eq_of_cols _ hd.1]; exact hj3,
      by rw [colIdx_eq_of_cols _ hd.1]; exact hk3, ?_⟩
    intro r hr
    rw [hd.2] at hr
    obtain ⟨r', hr', rfl⟩ := List.mem_map.mp hr
    obtain ⟨hmem', -⟩ := List.mem_filter.mp hr'
    obtain ⟨r0, hr0, rfl⟩ := List.mem_map.mp hmem'
    have base := hprop3 r0 hr0
    rw [getCell_set_ne (fun hh => hne1 hh.symm), getCell_set_ne (fun hh => hne1 hh.symm),
      getCell_set_ne (fun hh => hne2 hh.symm), getCell_set_ne (fun hh => hne2 hh.symm),
      getCell_set_ne (fun hh => hnek hh.symm), getCell_set_ne (fun hh => hnek hh.symm)]
    exact base
  · have hyn : t3.hasCol ("year") = false := by
      cases hcase : t3.hasCol ("year")
      · rfl
      · exact absurd hcase hy
    rw [yearStep_no_year hyn] at h5
    cases h5
    exact ⟨hcols3, hi3, hj3, hk3, hprop3⟩

/-- Claim C5: when coordinates come from a single `geolocation` column,
normalization strips the surrounding parentheses, splits on the comma
into two fields, and parses each as a float with non-numeric results
becoming null (`geoField` + `toNumericCell` per retained row); in
particular "(12.5, -70.3)" yields canonical latitude 12.5 and longitude
-70.3, and "(abc, -70.3)" causes the row to be dropped. -/
theorem c5_geolocation_parse :
    (∀ (t d : Table) (k : Nat),
      ((normCols t).hasCol ("lat") && (normCols t).hasCol ("lon")) = false →
      ((normCols t).hasCol ("latitude") && (normCols t).hasCol ("longitude")) = false →
      (normCols t).colIdx ("geolocation") = some k →
      (normCols t).hasCol ("reclat") = false →
      (normCols t).hasCol ("reclong") = false →
      t.Rect →
      loadTransform t = Except.ok d →
      ∀ r ∈ d.rows,
        getCell r ((normCols t).cols.length) = toNumericCell (geoField (getCell r k) 0) ∧
        getCell r ((normCols t).cols.length + 1) = toNumericCell (geoField (getCell r k) 1)) ∧
    (loadTransform ⟨[("geolocation")], [[Cell.str ("(12.5, -70.3)")]]⟩ =
      Except.ok ⟨[("geolocation"), ("reclat"), ("reclong")],
        [[Cell.str ("(12.5, -70.3)"), Cell.num ⟨125, 1⟩, Cell.num ⟨-703, 1⟩]]⟩ ∧
      numVal ⟨125, 1⟩ = (12.5 : Rat) ∧ numVal ⟨-703, 1⟩ = (-70.3 : Rat)) ∧
    loadTransform ⟨[("geolocation")], [[Cell.str ("(abc, -70.3)")]]⟩ =
      Except.ok ⟨[("geolocation"), ("reclat"), ("reclong")], []⟩ := by
  refine ⟨?_, ⟨by decide, by norm_num [numVal], by norm_num [numVal]⟩, by decide⟩
  intro t d k hb1 hb2 hgeo hra hrl hRect hok r hr
  exact ⟨((geo_ok_spec t d k hb1 hb2 hgeo hra hrl hRect hok).2.2.2.2 r hr).1,
    ((geo_ok_spec t d k hb1 hb2 hgeo hra hrl hRect hok).2.2.2.2 r hr).2.1⟩

/-- A concrete geolocation-shaped input with one parseable and one
unparseable coordinate pair. -/
def c5SampleIn : Table :=
  ⟨[("geolocation")], [[Cell.str ("(1.5, 2)")], [Cell.str ("(x, 3)")]]⟩

/-- The normalization of `c5SampleIn`. -/
def c5SampleOut : Table :=
  ⟨[("geolocation"), ("reclat"), ("reclong")],
    [[Cell.str ("(1.5, 2)"), Cell.num ⟨15, 1⟩, Cell.num ⟨2, 0⟩]]⟩

/-- Witness for C5 at `c5SampleIn`. -/
theorem c5_geolocation_witness :
    (((normCols c5SampleIn).hasCol ("lat") && (normCols c5SampleIn).hasCol ("lon")) = false) ∧
    (((normCols c5SampleIn).hasCol ("latitude") &&
      (normCols c5SampleIn).hasCol ("longitude")) = false) ∧
    ((normCols c5SampleIn).colIdx ("geolocation") = some 0) ∧
    ((normCols c5SampleIn).hasCol ("reclat") = false) ∧
    ((normCols c5SampleIn).hasCol ("reclong") = false) ∧
    c5SampleIn.Rect ∧
    loadTransform c5SampleIn = Except.ok c5SampleOut ∧
    ∀ r ∈ c5SampleOut.rows,
      getCell r ((normCols c5SampleIn).cols.length) = toNumericCell (geoField (getCell r 0) 0) ∧
      getCell r ((normCols c5SampleIn).cols.length + 1) =
        toNumericCell (geoField (getCell r 0) 1) :=
  ⟨by decide, by decide, by decide, by decide, by decide, by decide, by decide,
    c5_geolocation_parse.1 c5SampleIn c5SampleOut 0 (by decide) (by decide) (by decide)
      (by decide) (by decide) (by decide) (by decide)⟩

/-! ## Frame lemmas (claim C10) -/

/-- The column names normalization may rewrite or consume: the four
source coordinate names, the two canonical names, and the year column. -/
def touchedCol (c : String) : Bool :=
  c == ("lat") || c == ("lon") || c == ("latitude") || c == ("longitude") ||
  c == ("reclat") || c == ("reclong") || c == ("year")

/-- The cells of a row under the columns normalization never touches
(name / id, mass, geolocation, and any other payload column). -/
def maskRow (cols : List String) (r : List Cell) : List Cell :=
  ((cols.zip r).filter (fun p => !touchedCol p.1)).map (fun p => p.2)

theorem maskRow_nil_right (cols : List String) : maskRow cols [] = [] := by
  rw [maskRow, List.zip_nil_right]
  rfl

theorem maskRow_nil_left (r : List Cell) : maskRow [] r = [] := by
  rw [maskRow, List.zip_nil_left]
  rfl

theorem maskRow_cons (c : String) (cols : List String) (a : Cell) (r : List Cell) :
    maskRow (c :: cols) (a :: r) =
      if touchedCol c then maskRow cols r else a :: maskRow cols r := by
  rw [maskRow, maskRow, List.zip_cons_cons, List.filter_cons]
  by_cases h : touchedCol c = true
  · simp [h]
  · simp [h]

theorem maskRow_map (f : String → String) (hf : ∀ c, touchedCol (f c) = touchedCol c) :
    ∀ (cols : List String) (r : List Cell), maskRow (cols.map f) r = maskRow cols r := by
  intro cols
  induction cols with
  | nil => intro r; rfl
  | cons c cs ih =>
    intro r
    cases r with
    | nil => rw [maskRow_nil_right, maskRow_nil_right]
    | cons a as =>
      rw [List.map_cons, maskRow_cons, maskRow_cons, hf c, ih as]

theorem maskRow_set (cols : List String) :
    ∀ (r : List Cell) (i : Nat) (v : Cell),
      (∀ hlt : i < cols.length, touchedCol (cols.get ⟨i, hlt⟩) = true) →
      maskRow cols (r.set i v) = maskRow cols r := by
  induction cols with
  | nil => intro r i v _; rw [maskRow_nil_left, maskRow_nil_left]
  | cons c cs ih =>
    intro r i v h
    cases r with
    | nil => rw [List.set_nil]
    | cons a as =>
      cases i with
      | zero =>
        have hc : touchedCol c = true := h (by simp)
        rw [List.set_cons_zero, maskRow_cons, maskRow_cons, hc, if_pos rfl, if_pos rfl]
      | succ n =>
        rw [List.set_cons_succ, maskRow_cons, maskRow_cons,
          ih as n v (fun hlt => h (by simpa using Nat.succ_lt_succ hlt))]

theorem maskRow_append (cols cols' : List String) (r r' : List Cell)
    (hlen : cols.length = r.length) :
    maskRow (cols ++ cols') (r ++ r') = maskRow cols r ++ maskRow cols' r' := by
  rw [maskRow, maskRow, maskRow, List.zip_append hlen, List.filter_append, List.map_append]

theorem setCol_eq_append {t : Table} {c : String} {f : List Cell → Cell}
    (h : t.colIdx c = none) :
    t.setCol c f = ⟨t.cols ++ [c], t.rows.map (fun r => r ++ [f r])⟩ := by
  rw [Table.setCol, h]

theorem setCol_eq_set {t : Table} {c : String} {f : List Cell → Cell} {i : Nat}
    (h : t.colIdx c = some i) :
    t.setCol c f = ⟨t.cols, t.rows.map (fun r => r.set i (f r))⟩ := by
  rw [Table.setCol, h]

theorem setCol_mask (t : Table) (c : String) (f : List Cell → Cell)
    (hc : touchedCol c = true) (hRect : t.Rect) :
    (t.setCol c f).rows.map (maskRow (t.setCol c f).cols) = t.rows.map (maskRow t.cols) ∧
    (t.setCol c f).Rect ∧
    ((t.setCol c f).cols = t.cols ∨ (t.setCol c f).cols = t.cols ++ [c]) := by
  rcases hidx : t.colIdx c with _ | i
  · rw [setCol_eq_append hidx]
    refine ⟨?_, ?_, Or.inr rfl⟩
    · show (t.rows.map _).map (maskRow (t.cols ++ [c])) = _
      rw [List.map_map]
      apply List.map_congr_left
      intro r hr
      rw [Function.comp_apply, maskRow_append _ _ _ _ (hRect r hr).symm, maskRow_cons,
        if_pos hc, maskRow_nil_left, List.append_nil]
    · intro r hr
      obtain ⟨r0, hr0, rfl⟩ := List.mem_map.mp hr
      show (r0 ++ [f r0]).length = (t.cols ++ [c]).length
      rw [List.length_append, List.length_append, hRect r0 hr0]
      rfl
  · obtain ⟨hlt, hname⟩ := colIdx_name hidx
    rw [setCol_eq_set hidx]
    refine ⟨?_, ?_, Or.inl rfl⟩
    · show (t.rows.map _).map (maskRow t.cols) = _
      rw [List.map_map]
      apply List.map_congr_left
      intro r hr
      rw [Function.comp_apply]
      apply maskRow_set
      intro hlt2
      rw [List.get_eq_getElem]
      rw [hname]
      exact hc
    · intro r hr
      obtain ⟨r0, hr0, rfl⟩ := List.mem_map.mp hr
      show (r0.set i _).length = t.cols.length
      rw [List.length_set]
      exact hRect r0 hr0

theorem ren1_touched (c : String) : touchedCol (ren1 c) = touchedCol c := by
  rw [ren1]
  split_ifs with h1 h2 <;> simp_all [touchedCol]

theorem ren2_touched (c : String) : touchedCol (ren2 c) = touchedCol c := by
  rw [ren2]
  split_ifs with h1 h2 <;> simp_all [touchedCol]

theorem coordStep_mask {t u : Table} (h : coordStep t = Except.ok u) (hRect : t.Rect) :
    u.rows.map (maskRow u.cols) = t.rows.map (maskRow t.cols) ∧ u.Rect ∧
    (u.cols = t.cols.map ren1 ∨ u.cols = t.cols.map ren2 ∨ u.cols = t.cols ∨
     u.cols = t.cols ++ [("reclat")] ∨ u.cols = t.cols ++ [("reclong")] ∨
     u.cols = t.cols ++ [("reclat")] ++ [("reclong")]) := by
  rw [coordStep] at h
  split_ifs at h with hb1 hb2 hb3
  · cases h
    refine ⟨?_, ?_, Or.inl rfl⟩
    · show t.rows.map (maskRow (t.cols.map ren1)) = _
      exact List.map_congr_left (fun r _ => maskRow_map ren1 ren1_touched t.cols r)
    · intro r hr
      show r.length = (t.cols.map ren1).length
      rw [List.length_map]
      exact hRect r hr
  · cases h
    refine ⟨?_, ?_, Or.inr (Or.inl rfl)⟩
    · show t.rows.map (maskRow (t.cols.map ren2)) = _
      exact List.map_congr_left (fun r _ => maskRow_map ren2 ren2_touched t.cols r)
    · intro r hr
      show r.length = (t.cols.map ren2).length
      rw [List.length_map]
      exact hRect r hr
  · obtain ⟨k, hk, -, hu⟩ := geoBranch_ok _ _ h
    subst hu
    rw [geoAssign]
    obtain ⟨m1, R1, C1⟩ := setCol_mask t ("reclat")
      (fun r => toNumericCell (geoField (getCell r k) 0)) (by decide) hRect
    obtain ⟨m2, R2, C2⟩ := setCol_mask
      (t.setCol ("reclat") (fun r => toNumericCell (geoField (getCell r k) 0))) ("reclong")
      (fun r => toNumericCell (geoField (getCell r k) 1)) (by decide) R1
    refine ⟨m2.trans m1, R2, ?_⟩
    rcases C1 with e1 | e1 <;> rcases C2 with e2 | e2
    · exact Or.inr (Or.inr (Or.inl (e2.trans e1)))
    · exact Or.inr (Or.inr (Or.inr (Or.inr (Or.inl (by rw [e2, e1])))))
    · exact Or.inr (Or.inr (Or.inr (Or.inl (e2.trans e1))))
    · exact Or.inr (Or.inr (Or.inr (Or.inr (Or.inr (by rw [e2, e1])))))
  · cases h
    exact ⟨rfl, hRect, Or.inr (Or.inr (Or.inl rfl))⟩

theorem yearStep_mask {t u : Table} (h : yearStep t = Except.ok u) :
    List.Sublist (u.rows.map (maskRow u.cols)) (t.rows.map (maskRow t.cols)) ∧
    u.cols = t.cols := by
  by_cases hy : t.hasCol ("year") = true
  · obtain ⟨yi, hyi⟩ := colIdx_of_hasCol hy
    have hd := yearStep_decompose hyi h
    obtain ⟨hlt, hname⟩ := colIdx_name hyi
    have htouch : ∀ (v : Cell) (r : List Cell),
        maskRow t.cols (r.set yi v) = maskRow t.cols r := by
      intro v r
      apply maskRow_set
      intro hlt2
      rw [List.get_eq_getElem, hname]
      decide
    refine ⟨?_, hd.1⟩
    rw [hd.1, hd.2, List.map_map]
    have e2 : (List.filter (fun r => !(getCell r yi).isNull)
          (t.rows.map (fun r => r.set yi (toNumericCell (getCell r yi))))).map
        ((maskRow t.cols) ∘ (fun r => r.set yi (truncCell (getCell r yi)))) =
        (List.filter (fun r => !(getCell r yi).isNull)
          (t.rows.map (fun r => r.set yi (toNumericCell (getCell r yi))))).map
          (maskRow t.cols) :=
      List.map_congr_left (fun r _ => htouch _ r)
    rw [e2]
    have hsub : List.Sublist
        ((List.filter (fun r => !(getCell r yi).isNull)
          (t.rows.map (fun r => r.set yi (toNumericCell (getCell r yi))))).map (maskRow t.cols))
        ((t.rows.map (fun r => r.set yi (toNumericCell (getCell r yi)))).map (maskRow t.cols)) :=
      (List.filter_sublist _).map _
    have heq : (t.rows.map (fun r => r.set yi (toNumericCell (getCell r yi)))).map
        (maskRow t.cols) = t.rows.map (maskRow t.cols) := by
      rw [List.map_map]
      exact List.map_congr_left (fun r _ => htouch _ r)
    exact heq ▸ hsub
  · have hyn : t.hasCol ("year") = false := by
      cases hcase : t.hasCol ("year")
      · rfl
      · exact absurd hcase hy
    rw [yearStep_no_year hyn] at h
    cases h
    exact ⟨List.Sublist.refl _, rfl⟩

/-- Claim C10: for every rectangular input table, every retained row
keeps the original values of all columns other than the coordinate and
year columns (the mask of untouched columns is preserved cell for cell),
retained rows appear in the same relative order as in the input
(a sublist), and normalization changes the column list only by the
coordinate renaming or by appending the canonical coordinate columns. -/
theorem c10_frame_order (t d : Table) (hRect : t.Rect)
    (hok : loadTransform t = Except.ok d) :
    List.Sublist (d.rows.map (maskRow d.cols)) (t.rows.map (maskRow ((normCols t).cols))) ∧
    (d.cols = (normCols t).cols.map ren1 ∨ d.cols = (normCols t).cols.map ren2 ∨
     d.cols = (normCols t).cols ∨ d.cols = (normCols t).cols ++ [("reclat")] ∨
     d.cols = (normCols t).cols ++ [("reclong")] ∨
     d.cols = (normCols t).cols ++ [("reclat")] ++ [("reclong")]) := by
  obtain ⟨t2, t3, h2, h4, h5⟩ := loadTransform_decompose hok
  have hRectN : (normCols t).Rect := by
    intro r hr
    rw [normCols, List.length_map]
    exact hRect r hr
  obtain ⟨m2, R2, C2⟩ := coordStep_mask h2 hRectN
  obtain ⟨hc1, hc2, hcols3, hrows3⟩ := dropnaSubset_pair h4
  obtain ⟨msub, hcolsd⟩ := yearStep_mask h5
  constructor
  · have s3 : List.Sublist (t3.rows.map (maskRow t3.cols)) (t2.rows.map (maskRow t2.cols)) := by
      rw [hrows3, hcols3]
      exact (List.filter_sublist _).map _
    have s3' : List.Sublist (t3.rows.map (maskRow t3.cols))
        ((normCols t).rows.map (maskRow (normCols t).cols)) := by
      rw [← m2]
      exact s3
    exact msub.trans s3'
  · rw [hcolsd, hcols3]
    exact C2

/-- A concrete mixed table for the frame property. -/
def c10SampleIn : Table :=
  ⟨[("name"), ("Lat "), ("LON"), ("mass"), ("year")],
    [[Cell.str ("A"), Cell.num ⟨1, 0⟩, Cell.num ⟨2, 0⟩, Cell.num ⟨10, 0⟩, Cell.num ⟨1999, 0⟩],
     [Cell.str ("B"), Cell.null, Cell.num ⟨3, 0⟩, Cell.num ⟨11, 0⟩, Cell.num ⟨2000, 0⟩]]⟩

/-- The normalization of `c10SampleIn`. -/
def c10SampleOut : Table :=
  ⟨[("name"), ("reclat"), ("reclong"), ("mass"), ("year")],
    [[Cell.str ("A"), Cell.num ⟨1, 0⟩, Cell.num ⟨2, 0⟩, Cell.num ⟨10, 0⟩, Cell.num ⟨1999, 0⟩]]⟩

/-- Witness for C10 at `c10SampleIn`. -/
theorem c10_frame_order_witness :
    c10SampleIn.Rect ∧ loadTransform c10SampleIn = Except.ok c10SampleOut ∧
    (List.Sublist (c10SampleOut.rows.map (maskRow c10SampleOut.cols))
        (c10SampleIn.rows.map (maskRow ((normCols c10SampleIn).cols))) ∧
      (c10SampleOut.cols = (normCols c10SampleIn).cols.map ren1 ∨
       c10SampleOut.cols = (normCols c10SampleIn).cols.map ren2 ∨
       c10SampleOut.cols = (normCols c10SampleIn).cols ∨
       c10SampleOut.cols = (normCols c10SampleIn).cols ++ [("reclat")] ∨
       c10SampleOut.cols = (normCols c10SampleIn).cols ++ [("reclong")] ∨
       c10SampleOut.cols = (normCols c10SampleIn).cols ++ [("reclat")] ++ [("reclong")])) :=
  ⟨by decide, by decide, c10_frame_order c10SampleIn c10SampleOut (by decide) (by decide)⟩

/-! ## Idempotence of name normalization (claim C9) -/

theorem dropWhile_dropWhile_eq {α : Type} (p : α → Bool) (l : List α) :
    List.dropWhile p (List.dropWhile p l) = List.dropWhile p l := by
  induction l with
  | nil => rfl
  | cons a l ih =>
    rw [List.dropWhile_cons]
    by_cases h : p a = true
    · rw [if_pos h]
      exact ih
    · rw [if_neg h, List.dropWhile_cons, if_neg h]

theorem dropWhile_append_singleton {α : Type} {p : α → Bool} {a : α} (ha : p a = false)
    (x : List α) : List.dropWhile p (x ++ [a]) = List.dropWhile p x ++ [a] := by
  induction x with
  | nil =>
    rw [List.nil_append, List.dropWhile_cons, if_neg (by rw [ha]; intro hh; cases hh)]
    rfl
  | cons c x ih =>
    rw [List.cons_append, List.dropWhile_cons, List.dropWhile_cons]
    by_cases h : p c = true
    · rw [if_pos h, if_pos h, ih]
    · rw [if_neg h, if_neg h, List.cons_append]

theorem dropWhile_head_false {α : Type} {p : α → Bool} {l : List α} {a : α} {u : List α}
    (h : List.dropWhile p l = a :: u) : p a = false := by
  induction l with
  | nil => cases h
  | cons c l ih =>
    rw [List.dropWhile_cons] at h
    by_cases hc : p c = true
    · rw [if_pos hc] at h
      exact ih h
    · rw [if_neg hc] at h
      cases h
      cases hp : p a
      · rfl
      · exact absurd hp hc

theorem dropWhile_trimBy (p : Char → Bool) (l : List Char) :
    List.dropWhile p (trimBy p l) = trimBy p l := by
  rw [trimBy]
  rcases hu : List.dropWhile p l with _ | ⟨a, u⟩
  · rfl
  · have ha : p a = false := dropWhile_head_false hu
    rw [List.reverse_cons, dropWhile_append_singleton ha, List.reverse_append,
      List.reverse_singleton, List.singleton_append, List.dropWhile_cons,
      if_neg (by rw [ha]; intro hh; cases hh)]

theorem dropWhile_reverse_trimBy (p : Char → Bool) (l : List Char) :
    List.dropWhile p (trimBy p l).reverse = (trimBy p l).reverse := by
  rw [trimBy, List.reverse_reverse]
  exact dropWhile_dropWhile_eq p _

theorem trimBy_idem (p : Char → Bool) (l : List Char) :
    trimBy p (trimBy p l) = trimBy p l := by
  conv_lhs => rw [trimBy]
  rw [dropWhile_trimBy, dropWhile_reverse_trimBy, List.reverse_reverse]

theorem lowerChar_cases (c : Char) : lowerChar c = c ∨ (c, lowerChar c) ∈ lowerPairs := by
  rcases hf : lowerPairs.find? (fun p => p.1 == c) with _ | p
  · left
    rw [lowerChar, hf]
  · right
    have hmem := List.mem_of_find?_eq_some hf
    have hp0 := @List.find?_some _ (fun q => q.1 == c) p lowerPairs hf
    have hp : p.1 = c := beq_iff_eq.mp hp0
    rw [lowerChar, hf, ← hp]
    exact hmem

theorem lowerChar_pairs_fix :
    ∀ p ∈ lowerPairs,
      lowerChar p.2 = p.2 ∧ isSpaceChar p.1 = false ∧ isSpaceChar p.2 = false := by
  decide

theorem lowerChar_idem (c : Char) : lowerChar (lowerChar c) = lowerChar c := by
  rcases lowerChar_cases c with h | h
  · rw [h]
    exact h
  · exact (lowerChar_pairs_fix _ h).1

theorem isSpaceChar_lowerChar (c : Char) : isSpaceChar (lowerChar c) = isSpaceChar c := by
  rcases lowerChar_cases c with h | h
  · rw [h]
  · rw [(lowerChar_pairs_fix _ h).2.2, (lowerChar_pairs_fix _ h).2.1]

theorem dropWhile_map_lower (l : List Char) :
    List.dropWhile isSpaceChar (l.map lowerChar) =
      (List.dropWhile isSpaceChar l).map lowerChar := by
  rw [List.dropWhile_map]
  apply congrArg
  apply congrArg (fun p => List.dropWhile p l)
  funext c
  rw [Function.comp_apply]
  exact isSpaceChar_lowerChar c

theorem trimChars_map_lower (l : List Char) :
    trimChars (l.map lowerChar) = (trimChars l).map lowerChar := by
  rw [trimChars, trimChars, trimBy, trimBy, dropWhile_map_lower, ← List.map_reverse,
    dropWhile_map_lower, ← List.map_reverse]

theorem trimChars_idem (l : List Char) : trimChars (trimChars l) = trimChars l :=
  trimBy_idem isSpaceChar l

theorem normName_idem (s : String) : normName (normName s) = normName s := by
  rw [normName, normName]
  apply congrArg String.mk
  show (trimChars ((trimChars s.data).map lowerChar)).map lowerChar = _
  rw [trimChars_map_lower, trimChars_idem, List.map_map]
  exact List.map_congr_left (fun c _ => lowerChar_idem c)

theorem ren1_fix (x : String) : normName (ren1 (normName x)) = ren1 (normName x) := by
  rw [ren1]
  split_ifs with h1 h2
  · decide
  · decide
  · exact normName_idem x

theorem ren2_fix (x : String) : normName (ren2 (normName x)) = ren2 (normName x) := by
  rw [ren2]
  split_ifs with h1 h2
  · decide
  · decide
  · exact normName_idem x

theorem normCols_eq_self {d : Table} (h : ∀ c ∈ d.cols, normName c = c) : normCols d = d := by
  rw [normCols]
  have he : d.cols.map normName = d.cols := by
    rw [List.map_congr_left (fun c hc => (h c hc).trans rfl : ∀ c ∈ d.cols, normName c = id c)]
    exact List.map_id d.cols
  rw [he]

theorem loadTransform_cols_norm {t d : Table} (hRect : t.Rect)
    (hok : loadTransform t = Except.ok d) : ∀ c ∈ d.cols, normName c = c := by
  obtain ⟨t2, t3, h2, h4, h5⟩ := loadTransform_decompose hok
  have hRectN : (normCols t).Rect := by
    intro r hr
    rw [normCols, List.length_map]
    exact hRect r hr
  obtain ⟨-, -, C2⟩ := coordStep_mask h2 hRectN
  have hcols : d.cols = t2.cols := by
    rw [(yearStep_mask h5).2, (dropnaSubset_pair h4).2.2.1]
  intro c hc
  rw [hcols] at hc
  have hmapn : (normCols t).cols = t.cols.map normName := rfl
  rcases C2 with e | e | e | e | e | e <;> rw [e] at hc
  · obtain ⟨x, hx, rfl⟩ := List.mem_map.mp hc
    rw [hmapn] at hx
    obtain ⟨y, -, rfl⟩ := List.mem_map.mp hx
    exact ren1_fix y
  · obtain ⟨x, hx, rfl⟩ := List.mem_map.mp hc
    rw [hmapn] at hx
    obtain ⟨y, -, rfl⟩ := List.mem_map.mp hx
    exact ren2_fix y
  · rw [hmapn] at hc
    obtain ⟨y, -, rfl⟩ := List.mem_map.mp hc
    exact normName_idem y
  · rcases List.mem_append.mp hc with hm | hm
    · rw [hmapn] at hm
      obtain ⟨y, -, rfl⟩ := List.mem_map.mp hm
      exact normName_idem y
    · rw [show c = ("reclat") from by simpa using hm]
      decide
  · rcases List.mem_append.mp hc with hm | hm
    · rw [hmapn] at hm
      obtain ⟨y, -, rfl⟩ := List.mem_map.mp hm
      exact normName_idem y
    · rw [show c = ("reclong") from by simpa using hm]
      decide
  · rcases List.mem_append.mp hc with hm | hm
    · rcases List.mem_append.mp hm with hm2 | hm2
      · rw [hmapn] at hm2
        obtain ⟨y, -, rfl⟩ := List.mem_map.mp hm2
        exact normName_idem y
      · rw [show c = ("reclat") from by simpa using hm2]
        decide
    · rw [show c = ("reclong") from by simpa using hm]
      decide

/-! ## Re-run identity lemmas (claim C9) -/

theorem set_getCell_self : ∀ (r : List Cell) (i : Nat), r.set i (getCell r i) = r := by
  intro r
  induction r with
  | nil => intro i; rw [List.set_nil]
  | cons a as ih =>
    intro i
    cases i with
    | zero => rw [show getCell (a :: as) 0 = a from rfl, List.set_cons_zero]
    | succ n =>
      rw [List.set_cons_succ, show getCell (a :: as) (n + 1) = getCell as n from rfl, ih n]

theorem decTrunc_int0 (n : Int) : decTrunc ⟨n, 0⟩ = n := by
  rw [decTrunc]
  by_cases h : n < 0
  · rw [if_pos h]
    show -(((-n).toNat / 10 ^ 0 : Nat) : Int) = n
    rw [pow_zero, Nat.div_one, Int.toNat_of_nonneg (by omega)]
    omega
  · rw [if_neg h]
    show ((n.toNat / 10 ^ 0 : Nat) : Int) = n
    rw [pow_zero, Nat.div_one, Int.toNat_of_nonneg (by omega)]

theorem yearStep_id_of_int {d : Table}
    (hint : ∀ yi, d.colIdx ("year") = some yi →
      ∀ r ∈ d.rows, ∃ n : Int, getCell r yi = Cell.num ⟨n, 0⟩) :
    yearStep d = Except.ok d := by
  by_cases hy : d.hasCol ("year") = true
  · obtain ⟨yi, hyi⟩ := colIdx_of_hasCol hy
    have hcells := hint yi hyi
    have hmap1 : d.mapCol ("year") toNumericCell = d := by
      rw [Table.mapCol, hyi]
      dsimp only
      have he : d.rows.map (fun r => r.set yi (toNumericCell (getCell r yi))) = d.rows := by
        have hp : ∀ r ∈ d.rows, r.set yi (toNumericCell (getCell r yi)) = id r := by
          intro r hr
          obtain ⟨n, hn⟩ := hcells r hr
          rw [hn, show toNumericCell (Cell.num ⟨n, 0⟩) = Cell.num ⟨n, 0⟩ from rfl, ← hn]
          exact set_getCell_self r yi
        rw [List.map_congr_left hp, List.map_id]
      rw [he]
    have hdrop : dropnaSubset d [("year")] = Except.ok d := by
      rw [dropnaSubset_single_ok _ _ hy]
      have hf : d.rows.filter (fun r => !nullAt d ("year") r) = d.rows := by
        rw [List.filter_eq_self]
        intro r hr
        obtain ⟨n, hn⟩ := hcells r hr
        rw [nullAt_of_colIdx hyi, hn]
        rfl
      rw [hf]
    have hmap2 : d.mapCol ("year") truncCell = d := by
      rw [Table.mapCol, hyi]
      dsimp only
      have he : d.rows.map (fun r => r.set yi (truncCell (getCell r yi))) = d.rows := by
        have hp : ∀ r ∈ d.rows, r.set yi (truncCell (getCell r yi)) = id r := by
          intro r hr
          obtain ⟨n, hn⟩ := hcells r hr
          rw [hn, show truncCell (Cell.num ⟨n, 0⟩) = Cell.num ⟨decTrunc ⟨n, 0⟩, 0⟩ from rfl,
            decTrunc_int0, ← hn]
          exact set_getCell_self r yi
        rw [List.map_congr_left hp, List.map_id]
      rw [he]
    rw [yearStep, if_pos hy, hmap1, hdrop]
    show Except.ok (d.mapCol ("year") truncCell) = _
    rw [hmap2]
  · have hyn : d.hasCol ("year") = false := by
      cases hcase : d.hasCol ("year")
      · rfl
      · exact absurd hcase hy
    exact yearStep_no_year hyn

theorem dropna_pair_id {d : Table} {i j : Nat}
    (hi : d.colIdx ("reclat") = some i) (hj : d.colIdx ("reclong") = some j)
    (hnn : ∀ r ∈ d.rows, (getCell r i).isNull = false ∧ (getCell r j).isNull = false) :
    dropnaSubset d [("reclat"), ("reclong")] = Except.ok d := by
  rw [dropnaSubset_pair_ok _ _ _ (hasCol_of_colIdx hi) (hasCol_of_colIdx hj)]
  have hf : d.rows.filter (fun r => !nullAt d ("reclat") r && !nullAt d ("reclong") r) =
      d.rows := by
    rw [List.filter_eq_self]
    intro r hr
    rw [nullAt_of_colIdx hi, nullAt_of_colIdx hj, (hnn r hr).1, (hnn r hr).2]
    rfl
  rw [hf]

theorem geoWidth_eq_two {g : Cell}
    (h0 : (toNumericCell (geoField g 1)).isNull = false)
    (hle : geoWidth g ≤ 2) : geoWidth g = 2 := by
  cases g with
  | null => cases h0
  | num d => cases h0
  | str s =>
    rw [geoWidth]
    rw [geoField] at h0
    rcases hp : (geoParts (Cell.str s))[1]? with _ | part
    · rw [hp] at h0
      cases h0
    · rw [geoWidth] at hle
      by_cases hlen : (splitComma (stripParens s).data).length ≤ 1
      · exfalso
        have : (geoParts (Cell.str s))[1]? = none := by
          apply List.getElem?_eq_none
          rw [geoParts, List.length_map]
          exact hlen
        rw [this] at hp
        cases hp
      · omega

theorem geoBranch_rerun {d : Table} {k : Nat}
    (hk : d.colIdx ("geolocation") = some k)
    (hw : ∀ r ∈ d.rows, geoWidth (getCell r k) = 2) :
    geoBranch d = Except.ok (geoAssign d k) := by
  rw [geoBranch, hk]
  dsimp only
  rcases hrows : d.rows with _ | ⟨r0, rs⟩
  · rw [if_pos (by rfl)]
  · have hfold : ((r0 :: rs).map (fun r => geoWidth (getCell r k))).foldr max 1 = 2 := by
      apply foldr_max_eq_of_all
      · intro hh
        cases hh
      · intro x hx
        obtain ⟨r, hr, rfl⟩ := List.mem_map.mp hx
        exact hw r (by rw [hrows]; exact hr)
    rw [hfold]
    rw [if_pos (by rfl)]

theorem geoAssign_id {d : Table} {k len : Nat}
    (hi : d.colIdx ("reclat") = some len) (hj : d.colIdx ("reclong") = some (len + 1))
    (hcell : ∀ r ∈ d.rows,
      getCell r len = toNumericCell (geoField (getCell r k) 0) ∧
      getCell r (len + 1) = toNumericCell (geoField (getCell r k) 1)) :
    geoAssign d k = d := by
  have h1 : d.setCol ("reclat") (fun r => toNumericCell (geoField (getCell r k) 0)) = d := by
    rw [setCol_eq_set hi]
    have he : d.rows.map (fun r => r.set len (toNumericCell (geoField (getCell r k) 0))) =
        d.rows := by
      have hp : ∀ r ∈ d.rows,
          r.set len (toNumericCell (geoField (getCell r k) 0)) = id r := by
        intro r hr
        rw [← (hcell r hr).1]
        exact set_getCell_self r len
      rw [List.map_congr_left hp, List.map_id]
    rw [he]
  rw [geoAssign, h1, setCol_eq_set hj]
  have he : d.rows.map (fun r => r.set (len + 1) (toNumericCell (geoField (getCell r k) 1))) =
      d.rows := by
    have hp : ∀ r ∈ d.rows,
        r.set (len + 1) (toNumericCell (geoField (getCell r k) 1)) = id r := by
      intro r hr
      rw [← (hcell r hr).2]
      exact set_getCell_self r (len + 1)
    rw [List.map_congr_left hp, List.map_id]
  rw [he]

theorem ren1_beq_geo (c : String) : (ren1 c == ("geolocation")) = (c == ("geolocation")) := by
  rw [ren1]
  split_ifs with h1 h2 <;> simp_all

theorem ren2_beq_geo (c : String) : (ren2 c == ("geolocation")) = (c == ("geolocation")) := by
  rw [ren2]
  split_ifs with h1 h2 <;> simp_all

theorem geoAssign_hasCol_geo (t : Table) (k : Nat) :
    (geoAssign t k).hasCol ("geolocation") = t.hasCol ("geolocation") := by
  rw [geoAssign, setCol_hasCol_of_ne _ _ _ _ (by decide),
    setCol_hasCol_of_ne _ _ _ _ (by decide)]

theorem coordStep_ok_geo (t u : Table) (h : coordStep t = Except.ok u) :
    u.hasCol ("geolocation") = t.hasCol ("geolocation") := by
  rw [coordStep] at h
  split_ifs at h with hb1 hb2 hb3
  · cases h
    rw [hasCol_any, hasCol_any, renameCols, List.any_map]
    exact congrArg _ (funext ren1_beq_geo)
  · cases h
    rw [hasCol_any, hasCol_any, renameCols, List.any_map]
    exact congrArg _ (funext ren2_beq_geo)
  · obtain ⟨k, -, -, hu⟩ := geoBranch_ok t u h
    rw [hu, geoAssign_hasCol_geo]
  · cases h
    rfl

theorem loadTransform_ok_geo (t d : Table) (h : loadTransform t = Except.ok d) :
    d.hasCol ("geolocation") = (normCols t).hasCol ("geolocation") := by
  obtain ⟨t2, t3, h2, h4, h5⟩ := loadTransform_decompose h
  have e4 : t3.cols = t2.cols := by
    rw [((dropnaSubset_ok_iff _ _ _).mp h4).2]
  have e5 : d.cols = t3.cols := yearStep_ok_cols _ _ h5
  rw [hasCol_eq_of_cols _ (e5.trans e4)]
  exact coordStep_ok_geo _ _ h2

/-- Counterexample to claim C9: a table carrying both a `lat`/`lon` pair
and a `geolocation` column is normalized via the rename branch, but the
canonical output still contains the `geolocation` column; re-running
normalization re-parses it, overwrites the canonical coordinates, and
here drops the only row — the output changes. -/
theorem c9_idempotent_counterexample :
    loadTransform ⟨[("lat"), ("lon"), ("geolocation")],
        [[Cell.num ⟨1, 0⟩, Cell.num ⟨2, 0⟩, Cell.str ("(abc, 5)")]]⟩ =
      Except.ok ⟨[("reclat"), ("reclong"), ("geolocation")],
        [[Cell.num ⟨1, 0⟩, Cell.num ⟨2, 0⟩, Cell.str ("(abc, 5)")]]⟩ ∧
    loadTransform ⟨[("reclat"), ("reclong"), ("geolocation")],
        [[Cell.num ⟨1, 0⟩, Cell.num ⟨2, 0⟩, Cell.str ("(abc, 5)")]]⟩ =
      Except.ok ⟨[("reclat"), ("reclong"), ("geolocation")], []⟩ ∧
    (⟨[("reclat"), ("reclong"), ("geolocation")],
        [[Cell.num ⟨1, 0⟩, Cell.num ⟨2, 0⟩, Cell.str ("(abc, 5)")]]⟩ : Table) ≠
      ⟨[("reclat"), ("reclong"), ("geolocation")], []⟩ := by
  exact ⟨by decide, by decide, by decide⟩

/-- Claim C9 amended: normalization is idempotent on its canonical output
except when that output still matches a coordinate shape it did not come
from.  Precisely: for a rectangular input whose normalization succeeds,
if the output does not contain a `lat`/`lon` pair nor a
`latitude`/`longitude` pair, and — whenever the output retains a
`geolocation` column — the input itself resolved coordinates through the
geolocation branch with freshly appended canonical columns, then
re-running normalization on the output returns it unchanged. -/
theorem c9_idempotent_amended (t d : Table)
    (hRect : t.Rect)
    (hok : loadTransform t = Except.ok d)
    (h1 : (d.hasCol ("lat") && d.hasCol ("lon")) = false)
    (h2 : (d.hasCol ("latitude") && d.hasCol ("longitude")) = false)
    (h3 : d.hasCol ("geolocation") = true →
      ((normCols t).hasCol ("lat") && (normCols t).hasCol ("lon")) = false ∧
      ((normCols t).hasCol ("latitude") && (normCols t).hasCol ("longitude")) = false ∧
      (normCols t).hasCol ("reclat") = false ∧ (normCols t).hasCol ("reclong") = false) :
    loadTransform d = Except.ok d := by
  have hnorm : normCols d = d := normCols_eq_self (loadTransform_cols_norm hRect hok)
  obtain ⟨i, j, hi, hj, hnn, hyear⟩ := loadTransform_ok_inv t d hok
  by_cases hg : d.hasCol ("geolocation") = true
  · obtain ⟨g1, g2, g3, g4⟩ := h3 hg
    have hgeoN : (normCols t).hasCol ("geolocation") = true := by
      rw [← loadTransform_ok_geo t d hok]
      exact hg
    obtain ⟨k, hkN⟩ := colIdx_of_hasCol hgeoN
    obtain ⟨hcolsd, hlatIdx, hlonIdx, hgIdx, hrowProp⟩ :=
      geo_ok_spec t d k g1 g2 hkN g3 g4 hRect hok
    have hw2 : ∀ r ∈ d.rows, geoWidth (getCell r k) = 2 := by
      intro r hr
      exact geoWidth_eq_two
        (by rw [← (hrowProp r hr).2.1]; exact (hrowProp r hr).2.2.2.1)
        (hrowProp r hr).2.2.2.2
    have hcoordd : coordStep d = Except.ok d := by
      rw [coordStep, h1, h2]
      simp only [Bool.false_eq_true, if_false]
      rw [hg]
      simp only [if_true]
      rw [geoBranch_rerun hgIdx hw2,
        geoAssign_id hlatIdx hlonIdx (fun r hr => ⟨(hrowProp r hr).1, (hrowProp r hr).2.1⟩)]
    rw [loadTransform, hnorm, hcoordd]
    show (dropnaSubset d [("reclat"), ("reclong")]).bind yearStep = _
    rw [dropna_pair_id hlatIdx hlonIdx
      (fun r hr => ⟨(hrowProp r hr).2.2.1, (hrowProp r hr).2.2.2.1⟩)]
    show yearStep d = _
    exact yearStep_id_of_int hyear
  · have hgf : d.hasCol ("geolocation") = false := by
      cases hcase : d.hasCol ("geolocation")
      · rfl
      · exact absurd hcase hg
    have hcoordd : coordStep d = Except.ok d := by
      rw [coordStep, h1, h2, hgf]
      rfl
    rw [loadTransform, hnorm, hcoordd]
    show (dropnaSubset d [("reclat"), ("reclong")]).bind yearStep = _
    rw [dropna_pair_id hi hj hnn]
    show yearStep d = _
    exact yearStep_id_of_int hyear

/-- A concrete geolocation-shaped input for re-running normalization. -/
def c9SampleIn : Table :=
  ⟨[("geolocation"), ("mass")], [[Cell.str ("(3.5, -4)"), Cell.num ⟨7, 0⟩]]⟩

/-- The normalization of `c9SampleIn`, a fixed point of normalization. -/
def c9SampleOut : Table :=
  ⟨[("geolocation"), ("mass"), ("reclat"), ("reclong")],
    [[Cell.str ("(3.5, -4)"), Cell.num ⟨7, 0⟩, Cell.num ⟨35, 1⟩, Cell.num ⟨-4, 0⟩]]⟩

/-- Witness for the amended C9 at `c9SampleIn`. -/
theorem c9_idempotent_witness :
    c9SampleIn.Rect ∧
    loadTransform c9SampleIn = Except.ok c9SampleOut ∧
    ((c9SampleOut.hasCol ("lat") && c9SampleOut.hasCol ("lon")) = false) ∧
    ((c9SampleOut.hasCol ("latitude") && c9SampleOut.hasCol ("longitude")) = false) ∧
    (c9SampleOut.hasCol ("geolocation") = true →
      ((normCols c9SampleIn).hasCol ("lat") && (normCols c9SampleIn).hasCol ("lon")) = false ∧
      ((normCols c9SampleIn).hasCol ("latitude") &&
        (normCols c9SampleIn).hasCol ("longitude")) = false ∧
      (normCols c9SampleIn).hasCol ("reclat") = false ∧
      (normCols c9SampleIn).hasCol ("reclong") = false) ∧
    loadTransform c9SampleOut = Except.ok c9SampleOut :=
  ⟨by decide, by decide, by decide, by decide, by decide,
    c9_idempotent_amended c9SampleIn c9SampleOut (by decide) (by decide) (by decide)
      (by decide) (by decide)⟩
